import Mathlib

/-!
Verification development for the retrieval-and-extraction pipeline of
`src/ze/libs/googler.py` (query/URL state, connection fetch logic, result
parser state machine, and the `Result` container).

The Python code is shallowly embedded:

* pure helpers (`urllib.parse.quote_plus`/`unquote_plus` behaviour, Python
  string slicing/`find`/`index`, `str.split()`, `str.replace`) are embedded as
  executable Lean functions over `String`/`List Char`;
* the mutable objects (`GoogleUrl`, `GoogleConnection`, `GoogleParser`,
  `Result`) become structures with explicit state passing;
* Python exceptions become `Except`/error constructors, one constructor per
  exception class (`KeyError`, `TypeError`, `ValueError`,
  `GoogleConnectionError`, `OSError`, `http.client.HTTPException`);
* the HTML tokenizer is Python's `html.parser.HTMLParser` (standard library,
  outside this repository); `GoogleParser` only installs `handle_starttag`,
  `handle_endtag` and `handle_data` handlers, so a document is embedded as the
  sequence of handler events the tokenizer delivers (with the default
  `convert_charrefs=True`, character/entity references are merged into data
  events before reaching the handlers).
-/

namespace Googler

set_option maxHeartbeats 800000

/-! ## Python string primitives -/

/-- Python `str.find(ch)`: index of the first occurrence of the character, or
`-1` when absent (indices count code points, as in Python). -/
def pyFindChar (s : String) (ch : Char) : Int :=
  match s.toList.findIdx? (· = ch) with
  | some i => (i : Int)
  | none => -1

/-- Python slice `s[:k]` (upper bound only), including the negative-index
convention: a negative `k` counts from the end, clamped at `0`. -/
def pySliceUpto (s : String) (k : Int) : String :=
  if k < 0 then String.mk (s.toList.take (((s.length : Int) + k).toNat))
  else String.mk (s.toList.take k.toNat)

/-- Search for `sub` in `hay` starting at offset `i`, returning the absolute
index of the first match (helper for Python `str.index`/`in`). -/
def findSubAux (sub : List Char) : List Char → Nat → Option Nat
  | [], i => if sub = [] then some i else none
  | c :: t, i => if sub.isPrefixOf (c :: t) then some i else findSubAux sub t (i + 1)

/-- Python `hay.index(sub, start)` as an `Option` (Python raises `ValueError`
where this returns `none`). -/
def findSub (hay sub : String) (start : Nat) : Option Nat :=
  (findSubAux sub.toList (hay.toList.drop start) 0).map (· + start)

/-- Python `sub in hay` substring test. -/
def strContains (hay sub : String) : Bool :=
  (findSub hay sub 0).isSome

/-- Python `s.replace(old, new, 1)`: replace only the first occurrence. -/
def replaceFirst (s old new : String) : String :=
  match findSub s old 0 with
  | none => s
  | some i => String.mk (s.toList.take i ++ new.toList ++ s.toList.drop (i + old.length))

/-- Worker for Python `s.replace(old, new)` (all occurrences, left to right,
non-overlapping); the fuel argument (instantiated with the input length, enough
since every step consumes at least one character) only serves termination. -/
def replaceAllAux (old new : List Char) : Nat → List Char → List Char
  | 0, l => l
  | _, [] => []
  | fuel + 1, c :: rest =>
    if old ≠ [] ∧ old.isPrefixOf (c :: rest) then
      new ++ replaceAllAux old new fuel ((c :: rest).drop old.length)
    else c :: replaceAllAux old new fuel rest

/-- Python `s.replace(old, new)` with a non-empty `old`. -/
def replaceAll (s old new : String) : String :=
  String.mk (replaceAllAux old.toList new.toList s.length s.toList)

/-- Worker for Python `str.split()`: split on whitespace runs, dropping empty
fragments; `cur` is the reversed current fragment. -/
def pySplitWSAux : List Char → List Char → List String
  | [], cur => if cur.isEmpty then [] else [String.mk cur.reverse]
  | c :: rest, cur =>
    if c.isWhitespace then
      if cur.isEmpty then pySplitWSAux rest []
      else String.mk cur.reverse :: pySplitWSAux rest []
    else pySplitWSAux rest (c :: cur)

/-- Python `str.split()` with no argument. -/
def pySplitWS (s : String) : List String :=
  pySplitWSAux s.toList []

/-- Python `s.startswith(p)`. -/
def strStartsWith (s p : String) : Bool :=
  p.toList.isPrefixOf s.toList

/-- Python `s.endswith(p)`. -/
def strEndsWith (s p : String) : Bool :=
  s.toList.drop (s.length - p.length) == p.toList

/-! ## UTF-8 and percent-coding (behaviour of `urllib.parse`) -/

/-- UTF-8 encoding of one scalar value, as a list of byte values. -/
def utf8Bytes (c : Char) : List Nat :=
  let n := c.toNat
  if n < 0x80 then [n]
  else if n < 0x800 then [0xC0 + n / 0x40, 0x80 + n % 0x40]
  else if n < 0x10000 then [0xE0 + n / 0x1000, 0x80 + (n / 0x40) % 0x40, 0x80 + n % 0x40]
  else [0xF0 + n / 0x40000, 0x80 + (n / 0x1000) % 0x40, 0x80 + (n / 0x40) % 0x40, 0x80 + n % 0x40]

/-- Value of one hex digit, or `none`. -/
def hexDigit? (c : Char) : Option Nat :=
  if '0' ≤ c ∧ c ≤ '9' then some (c.toNat - '0'.toNat)
  else if 'a' ≤ c ∧ c ≤ 'f' then some (c.toNat - 'a'.toNat + 10)
  else if 'A' ≤ c ∧ c ≤ 'F' then some (c.toNat - 'A'.toNat + 10)
  else none

/-- Percent-decoding to bytes: `%hh` becomes one byte, anything else passes
through as its UTF-8 bytes; invalid escapes are left literal, as in
`urllib.parse.unquote`. -/
def pctDecodeBytes : List Char → List Nat
  | [] => []
  | '%' :: a :: b :: rest =>
    match hexDigit? a, hexDigit? b with
    | some ha, some hb => (16 * ha + hb) :: pctDecodeBytes rest
    | _, _ => utf8Bytes '%' ++ pctDecodeBytes (a :: b :: rest)
  | c :: rest => utf8Bytes c ++ pctDecodeBytes rest

/-- Is the byte a UTF-8 continuation byte? -/
def isCont (b : Nat) : Bool :=
  0x80 ≤ b ∧ b < 0xC0

/-- UTF-8 decoding worker; the fuel argument (instantiated with the byte-list
length, enough since every step consumes at least one byte) only serves
termination. Malformed sequences produce U+FFFD, the `errors='replace'`
behaviour used by `urllib.parse.unquote`. -/
def utf8DecodeAux : Nat → List Nat → List Char
  | 0, _ => []
  | _, [] => []
  | fuel + 1, b :: rest =>
    if b < 0x80 then Char.ofNat b :: utf8DecodeAux fuel rest
    else if 0xC2 ≤ b ∧ b ≤ 0xDF then
      match rest with
      | b2 :: rest2 =>
        if isCont b2 then Char.ofNat ((b - 0xC0) * 0x40 + (b2 - 0x80)) :: utf8DecodeAux fuel rest2
        else '�' :: utf8DecodeAux fuel rest
      | [] => ['�']
    else if 0xE0 ≤ b ∧ b ≤ 0xEF then
      match rest with
      | b2 :: b3 :: rest3 =>
        if isCont b2 ∧ isCont b3 then
          Char.ofNat ((b - 0xE0) * 0x1000 + (b2 - 0x80) * 0x40 + (b3 - 0x80))
            :: utf8DecodeAux fuel rest3
        else '�' :: utf8DecodeAux fuel rest
      | _ => ['�']
    else if 0xF0 ≤ b ∧ b ≤ 0xF4 then
      match rest with
      | b2 :: b3 :: b4 :: rest4 =>
        if isCont b2 ∧ isCont b3 ∧ isCont b4 then
          Char.ofNat ((b - 0xF0) * 0x40000 + (b2 - 0x80) * 0x1000 + (b3 - 0x80) * 0x40 + (b4 - 0x80))
            :: utf8DecodeAux fuel rest4
        else '�' :: utf8DecodeAux fuel rest
      | _ => ['�']
    else '�' :: utf8DecodeAux fuel rest

/-- UTF-8 decoding of a byte list. -/
def utf8Decode (l : List Nat) : List Char :=
  utf8DecodeAux l.length l

/-- `urllib.parse.unquote_plus`: `+` becomes a space, then percent-escapes are
decoded as UTF-8. -/
def unquote_plus (s : String) : String :=
  String.mk (utf8Decode (pctDecodeBytes (s.toList.map fun c => if c = '+' then ' ' else c)))

/-- Characters `urllib.parse.quote` never escapes (the always-safe set). -/
def quoteSafe (c : Char) : Bool :=
  ('A' ≤ c ∧ c ≤ 'Z') ∨ ('a' ≤ c ∧ c ≤ 'z') ∨ ('0' ≤ c ∧ c ≤ '9') ∨
    c = '_' ∨ c = '.' ∨ c = '-' ∨ c = '~'

/-- Upper-case hex digit of a value below 16. -/
def hexUpper (n : Nat) : Char :=
  if n < 10 then Char.ofNat ('0'.toNat + n) else Char.ofNat ('A'.toNat + n - 10)

/-- `urllib.parse.quote_plus`: spaces become `+`, safe characters pass through,
every other byte of the UTF-8 encoding becomes `%XX`. -/
def quote_plus (s : String) : String :=
  String.mk (s.toList.foldr (fun c acc =>
    (if c = ' ' then ['+']
     else if quoteSafe c then [c]
     else (utf8Bytes c).foldr (fun b acc2 => '%' :: hexUpper (b / 16) :: hexUpper (b % 16) :: acc2) []) ++ acc) [])

/-! ## Python `dict` with string keys (insertion-ordered association list) -/

/-- First-match association lookup (`d[k]`/`d.get(k)` on a key-unique dict). -/
def dictLookup : List (String × String) → String → Option String
  | [], _ => none
  | (k', v') :: rest, k => if k' = k then some v' else dictLookup rest k

/-- `d[k] = v` on an insertion-ordered dict: update in place, else append. -/
def dictSet : List (String × String) → String → String → List (String × String)
  | [], k, v => [(k, v)]
  | (k', v') :: rest, k, v => if k' = k then (k', v) :: rest else (k', v') :: dictSet rest k v

/-- `d.pop(k, None)`: drop the entry for `k` when present. -/
def dictPop : List (String × String) → String → List (String × String)
  | [], _ => []
  | (k', v') :: rest, k => if k' = k then rest else (k', v') :: dictPop rest k

/-- `dict(attrs)` on the attribute pair list handed over by `HTMLParser`
(later duplicates win, insertion order kept). -/
def pyDict (attrs : List (String × String)) : List (String × String) :=
  attrs.foldl (fun d kv => dictSet d kv.1 kv.2) []

/-! ## `GoogleUrl`: query and pagination state -/

/-- `GoogleUrl._keywords` is either a raw string or a list of strings. -/
inductive Keywords
  | ofStr (s : String)
  | ofList (l : List String)
deriving DecidableEq

/-- State of a `GoogleUrl` object (underscore-prefixed attributes lose the
underscore; `netloc` and `query` stay computed properties). -/
structure GoogleUrl where
  scheme : String := "https"
  path : String := "/search"
  params : String := ""
  fragment : String := ""
  tld : Option String := none
  num : Nat := 10
  start : Nat := 0
  keywords : Keywords := .ofList []
  site : Option String := none
  query_dict : List (String × String) := [("ie", "UTF-8"), ("oe", "UTF-8")]
deriving DecidableEq

/-- The recognized option keys of `GoogleUrl.update` (a key absent from the
`opts` mapping is `none`; `site`/`tld` may be explicitly set to `None`, hence
the nested `Option`). -/
structure Opts where
  duration : Option String := none
  exact : Option Bool := none
  keywords : Option Keywords := none
  lang : Option String := none
  news : Option Bool := none
  num : Option Nat := none
  site : Option (Option String) := none
  start : Option Nat := none
  tld : Option (Option String) := none

/-- `GoogleUrl.update`: merge present option keys into the state; absent keys
leave the state untouched. `duration`/`lang` additionally require a truthy
(non-empty) value; `exact`/`news` add or remove their query flag. -/
def GoogleUrl.update (u : GoogleUrl) (o : Opts) : GoogleUrl :=
  let qd := u.query_dict
  let qd := match o.duration with
    | some d => if d ≠ "" then dictSet qd "tbs" ("qdr:" ++ d) else qd
    | none => qd
  let qd := match o.exact with
    | some true => dictSet qd "nfpr" "1"
    | some false => dictPop qd "nfpr"
    | none => qd
  let qd := match o.lang with
    | some l => if l ≠ "" then dictSet qd "hl" l else qd
    | none => qd
  let qd := match o.news with
    | some true => dictSet qd "tbm" "nws"
    | some false => dictPop qd "tbm"
    | none => qd
  { u with
    query_dict := qd
    keywords := o.keywords.getD u.keywords
    num := o.num.getD u.num
    site := match o.site with | some s => s | none => u.site
    start := o.start.getD u.start
    tld := match o.tld with | some t => t | none => u.tld }

/-- `GoogleUrl.__init__(opts)`: defaults then one `update`. -/
def GoogleUrl.init (o : Opts) : GoogleUrl :=
  GoogleUrl.update {} o

/-- `GoogleUrl.set_queries(**kwargs)`: force-set arbitrary query keys. -/
def GoogleUrl.set_queries (u : GoogleUrl) (kvs : List (String × String)) : GoogleUrl :=
  { u with query_dict := kvs.foldl (fun d kv => dictSet d kv.1 kv.2) u.query_dict }

/-- `GoogleUrl.unset_queries(*args)`: force-remove query keys. -/
def GoogleUrl.unset_queries (u : GoogleUrl) (ks : List String) : GoogleUrl :=
  { u with query_dict := ks.foldl dictPop u.query_dict }

/-- The exception raised by `prev_page`/`first_page` at the first page. -/
inductive UrlErr
  | valueError (msg : String)
deriving DecidableEq

/-- `GoogleUrl.next_page()`: `start += num`, unconditionally. -/
def GoogleUrl.next_page (u : GoogleUrl) : GoogleUrl :=
  { u with start := u.start + u.num }

/-- `GoogleUrl.prev_page()`: `ValueError` at the first page, else
`start = start - num if start > num else 0`. -/
def GoogleUrl.prev_page (u : GoogleUrl) : Except UrlErr GoogleUrl :=
  if u.start = 0 then .error (.valueError "Already at the first page.")
  else .ok { u with start := if u.start > u.num then u.start - u.num else 0 }

/-- `GoogleUrl.first_page()`: `ValueError` at the first page, else `start = 0`. -/
def GoogleUrl.first_page (u : GoogleUrl) : Except UrlErr GoogleUrl :=
  if u.start = 0 then .error (.valueError "Already at the first page.")
  else .ok { u with start := 0 }

/-- The `q` query value: keywords percent-encoded (joined by `+` when a list),
then an optional `+site:...` suffix — empty keyword containers are falsy and
contribute nothing, exactly as in the `query` property. -/
def GoogleUrl.qval (u : GoogleUrl) : String :=
  (match u.keywords with
   | .ofStr s => if s = "" then "" else quote_plus s
   | .ofList l => if l = [] then "" else String.intercalate "+" (l.map quote_plus)) ++
  (match u.site with
   | some s => if s = "" then "" else "+site:" ++ quote_plus s
   | none => "")

/-- The key/value pairs of the rendered query string, in rendering order: the
`query` property copies `_query_dict`, force-sets `num`, `start` and the
synthesized `q`, and renders keys in `sorted` order. -/
def GoogleUrl.query_pairs (u : GoogleUrl) : List (String × String) :=
  let qd := dictSet (dictSet (dictSet u.query_dict "num" (toString u.num))
      "start" (toString u.start)) "q" u.qval
  ((qd.map Prod.fst).mergeSort (fun a b => a ≤ b)).map fun k => (k, (dictLookup qd k).getD "")

/-- The `query` property: `'&'.join('%s=%s' % (k, qd[k]) for k in sorted(qd))`. -/
def GoogleUrl.query (u : GoogleUrl) : String :=
  String.intercalate "&" (u.query_pairs.map fun kv => kv.1 ++ "=" ++ kv.2)

/-- `GoogleUrl.relative()`: path, then `;params`, `?query`, `#fragment` when
non-empty. -/
def GoogleUrl.relative (u : GoogleUrl) : String :=
  u.path ++ (if u.params ≠ "" then ";" ++ u.params else "")
         ++ (if u.query ≠ "" then "?" ++ u.query else "")
         ++ (if u.fragment ≠ "" then "#" ++ u.fragment else "")

/-- The states a `GoogleUrl` object can reach through its public mutators. -/
inductive Reachable : GoogleUrl → Prop
  | init (o : Opts) : Reachable (GoogleUrl.init o)
  | update {u : GoogleUrl} (o : Opts) : Reachable u → Reachable (u.update o)
  | set_queries {u : GoogleUrl} (kvs : List (String × String)) :
      Reachable u → Reachable (u.set_queries kvs)
  | unset_queries {u : GoogleUrl} (ks : List String) :
      Reachable u → Reachable (u.unset_queries ks)
  | next_page {u : GoogleUrl} : Reachable u → Reachable u.next_page
  | prev_page {u u' : GoogleUrl} : Reachable u → u.prev_page = .ok u' → Reachable u'
  | first_page {u u' : GoogleUrl} : Reachable u → u.first_page = .ok u' → Reachable u'

/-! ## Python exceptions reachable in the parser and `Result` -/

/-- Exception classes that can escape the parser layer or `Result.__init__`. -/
inductive PyErr
  | keyError
  | attributeError
  | typeError
deriving DecidableEq

/-! ## `Sitelink` and `Result` -/

/-- `Sitelink`: secondary result container (`index` is set later by
`Result.__init__`). -/
structure Sitelink where
  title : String
  url : String
  abstract : String
  index : String := ""
deriving DecidableEq

/-- A constructed `Result` object: the constructor-stored fields plus the
`_urltable` dict built by `__init__` (returned by `urltable()`). -/
structure Result where
  index : String
  title : String
  url : String
  abstract : String
  metadata : Option String
  sitelinks : List Sitelink
  urltable : List (String × String)
deriving DecidableEq

/-- The sitelink loop of `Result.__init__`: assign `index + subindex` (letters
from `a` on, via `chr(ord(subindex) + 1)`) to each sitelink in encounter order
and record `fullindex -> sitelink.url` in the url table. -/
def sitelinkLoop (indexS : String) : Nat → List Sitelink → List (String × String) →
    List Sitelink × List (String × String)
  | _, [], tab => ([], tab)
  | sub, sl :: rest, tab =>
    let fullindex := indexS.push (Char.ofNat sub)
    let sl' := { sl with index := fullindex }
    let (sls, tab') := sitelinkLoop indexS (sub + 1) rest (dictSet tab fullindex sl.url)
    (sl' :: sls, tab')

/-- `Result.__init__(index, title, url, abstract, metadata=None,
sitelinks=None)`. The table-building loop iterates the raw `sitelinks`
parameter (not the normalized `self.sitelinks`), so passing `None` — the
default — raises `TypeError` ("'NoneType' object is not iterable") and no
object is produced. -/
def Result.init (index : Nat) (title url abstract : String) (metadata : Option String)
    (sitelinks : Option (List Sitelink)) : Except PyErr Result :=
  match sitelinks with
  | none => .error .typeError
  | some sls =>
    .ok { index := toString index, title := title, url := url, abstract := abstract,
          metadata := metadata,
          sitelinks := (sitelinkLoop (toString index) 'a'.toNat sls [(toString index, url)]).1,
          urltable := (sitelinkLoop (toString index) 'a'.toNat sls [(toString index, url)]).2 }

/-! ## The parser state machine (`GoogleParser`)

`GoogleParser` rebinds `handle_starttag`/`handle_endtag` to `SCOPE_start`/
`SCOPE_end` pairs (`set_handlers_to`) and `handle_data` to a recording or
discarding handler (`start_populating_textbuf`/`stop_populating_textbuf`).
The embedding represents the current handler bindings by a `Scope` value and a
`Capture` value. Tag annotations (`insert_annotation` and the
`retrieve_tag_annotation` pop) live in a per-tag-name stack dictionary. -/

/-- Which `SCOPE_start`/`SCOPE_end` handler pair is installed. -/
inductive Scope
  | root
  | result
  | title
  | abstract
  | sitelink_table
  | sitelink
  | sitelink_title
  | ignore
deriving DecidableEq

/-- The scope's name, as used in `SCOPE + '_ignored'` annotations. -/
def scopeName : Scope → String
  | .root => "root"
  | .result => "result"
  | .title => "title"
  | .abstract => "abstract"
  | .sitelink_table => "sitelink_table"
  | .sitelink => "sitelink"
  | .sitelink_title => "sitelink_title"
  | .ignore => "ignore"

/-- `set_handlers_to(name)`: `getattr` succeeds exactly for the eight handler
scope names (`none` models `AttributeError`). -/
def scopeOfName : String → Option Scope
  | "root" => some .root
  | "result" => some .result
  | "title" => some .title
  | "abstract" => some .abstract
  | "sitelink_table" => some .sitelink_table
  | "sitelink" => some .sitelink
  | "sitelink_title" => some .sitelink_title
  | "ignore" => some .ignore
  | _ => none

/-- The current `handle_data` binding: discarding (`stop_populating_textbuf`),
verbatim recording, or one of the three concrete `data_transformer` lambdas
passed to `start_populating_textbuf` in the source. -/
inductive Capture
  | off
  | verbatim
  | spaced
  | newsSepUA
  | newsSepNoUA
deriving DecidableEq

/-- Everything of the parser state except the tag-annotation stacks: the
constructor-initialized fields, the in-flight result registers (created by
`root_start` on a result container), and the current handler bindings.
`news` is the constructor flag; `ua` is the module-level user-agent global. -/
structure PCore where
  news : Bool
  ua : Bool
  autocorrected : Bool
  suggested_spelling : Option String
  filtered : Bool
  results : List Result
  index : Nat
  textbuf : String
  scope : Scope
  capture : Capture
  title : String
  url : String
  abstract : String
  metadata : String
  sitelinks : List Sitelink
  title_registered : Bool
  abstract_registered : Bool
  metadata_registered : Bool
  current_sitelink : Sitelink
deriving DecidableEq

/-- `handle_data` under the current binding (`record_data` or the respective
`data_transformer` wrapper; discarding when capture is off). -/
def recordData (c : PCore) (data : String) : PCore :=
  match c.capture with
  | .off => c
  | .verbatim => { c with textbuf := c.textbuf ++ data }
  | .spaced => { c with textbuf := c.textbuf ++ (data ++ " ") }
  | .newsSepUA => { c with textbuf := c.textbuf ++ (if data = "-" then ", " else data) }
  | .newsSepNoUA =>
    { c with textbuf := c.textbuf ++
        (if strContains data " - " then replaceFirst data " -" "," else data) }

/-- `classes(attrs)`: the whitespace-split `class` attribute. -/
def classes (ad : List (String × String)) : List String :=
  pySplitWS ((dictLookup ad "class").getD "")

/-- One ignore-list selector. Every selector in the fixed `IGNORE_LIST`
carries exactly the special `tag` key and a `class` key (whose value is
matched as a set inclusion of whitespace-split class names), so the selector
dict is embedded as this pair; the generic attribute-equality branch of the
matching loop is unreachable for this list. -/
structure Selector where
  tag : String
  cls : String
deriving DecidableEq

/-- `GoogleParser.IGNORE_LIST`. -/
def IGNORE_LIST : List Selector :=
  [⟨"div", "related-question-pair"⟩, ⟨"div", "g-blk"⟩, ⟨"div", "hp-xpdbox"⟩]

/-- One selector's test in `annotate_tag`: the tag name matches and the
selector's classes are a subset of the tag's classes. -/
def selectorMatches (sel : Selector) (tag : String) (ad : List (String × String)) : Bool :=
  tag = sel.tag ∧ (pySplitWS sel.cls).all fun c => (classes ad).contains c

/-- The ignore-list comparison of `annotate_tag`. -/
def ignoreMatch (tag : String) (ad : List (String × String)) : Bool :=
  IGNORE_LIST.any fun sel => selectorMatches sel tag ad

/-! ### Start-tag handler bodies (the `@annotate_tag`-decorated methods,
minus the shared decorator logic, which lives in `handleStart` below).
Each returns the updated core and the annotation to push. -/

/-- `root_start`. -/
def root_start (c : PCore) (tag : String) (ad : List (String × String)) :
    PCore × Option String :=
  if tag = "div" ∧ (classes ad).contains "g" then
    ({ c with title := "", url := "", abstract := "", metadata := "", sitelinks := [],
              title_registered := false, abstract_registered := false,
              metadata_registered := false, scope := .result }, some "result")
  else if tag = "span" ∧ (classes ad).contains "spell_orig" ∧ dictLookup ad "id" ≠ some "sifm" then
    ({ c with autocorrected := true }, none)
  else if tag = "a" ∧ (classes ad).contains "spell" ∧ dictLookup ad "id" ≠ some "srfl" then
    ({ c with capture := .verbatim }, some "spell")
  else if tag = "p" ∧ dictLookup ad "id" = some "ofr" then
    ({ c with filtered := true }, none)
  else (c, none)

/-- `result_start`. -/
def result_start (c : PCore) (tag : String) (ad : List (String × String)) :
    PCore × Option String :=
  if c.ua = false ∧ tag = "span" ∧ (classes ad).contains "mime" then
    ({ c with capture := .verbatim }, some "title_filetype")
  else if c.title_registered = false ∧ tag = "h3" ∧ (classes ad).contains "r" then
    ({ c with scope := .title }, some "title")
  else if c.abstract_registered = false ∧ tag = "div" ∧ (classes ad).contains "s" then
    ({ c with scope := .abstract }, some "abstract")
  else if c.ua = false ∧ c.abstract_registered = false ∧ tag = "span" ∧
      (classes ad).contains "st" then
    ({ c with capture := .spaced }, some "abstract_gservices")
  else if c.sitelinks = [] ∧ tag = "table" ∧
      (c.ua = true ∨ (c.news = false ∧ (classes ad).contains "ts" = false)) then
    ({ c with scope := .sitelink_table }, some "sitelink_table")
  else if c.news = true ∧ c.metadata_registered = false ∧ tag = "div" ∧
      (classes ad).contains "slp" then
    ({ c with capture := if c.ua then .newsSepUA else .newsSepNoUA }, some "news_metadata")
  else if c.news = true ∧ c.abstract_registered = false ∧ tag = "div" ∧
      (classes ad).contains "st" then
    ({ c with capture := .verbatim }, some "news_abstract")
  else (c, none)

/-- The href unwrapping in `title_start`/`sitelink_title_start`: extract the
percent-decoded value of a `?q=` redirect-wrapper parameter up to a following
`&sa=`; when either marker is missing (`ValueError` from `str.index`), the
href is kept whole. -/
def unwrapUrl (u : String) : String :=
  match findSub u "?q=" 0 with
  | none => u
  | some i =>
    match findSub u "&sa=" (i + 3) with
    | none => u
    | some e => unquote_plus (String.mk ((u.toList.drop (i + 3)).take (e - (i + 3))))

/-- `title_start`. -/
def title_start (c : PCore) (tag : String) (ad : List (String × String)) :
    PCore × Option String :=
  if c.ua = true ∧ tag = "span" then
    ({ c with capture := .spaced }, some "title_filetype")
  else if tag = "a" ∧ (dictLookup ad "href").isSome then
    let href := (dictLookup ad "href").getD ""
    if strStartsWith href "/search" then (c, none)
    else ({ c with url := unwrapUrl href, capture := .verbatim }, some "title_link")
  else (c, none)

/-- `abstract_start`. -/
def abstract_start (c : PCore) (tag : String) (ad : List (String × String)) :
    PCore × Option String :=
  if tag = "span" ∧ (classes ad).contains "st" then
    ({ c with capture := .verbatim }, some "abstract_text")
  else (c, none)

/-- `sitelink_table_start`. -/
def sitelink_table_start (c : PCore) (tag : String) (_ad : List (String × String)) :
    PCore × Option String :=
  if tag = "td" then
    ({ c with current_sitelink := ⟨"", "", "", ""⟩, scope := .sitelink }, some "sitelink")
  else (c, none)

/-- `sitelink_start`. -/
def sitelink_start (c : PCore) (tag : String) (ad : List (String × String)) :
    PCore × Option String :=
  if tag = "h3" ∧ (classes ad).contains "r" then
    ({ c with scope := .sitelink_title }, some "sitelink_title")
  else if tag = "div" ∧ (classes ad).contains "st" then
    ({ c with capture := .verbatim }, some "sitelink_abstract")
  else (c, none)

/-- `sitelink_title_start`. -/
def sitelink_title_start (c : PCore) (tag : String) (ad : List (String × String)) :
    PCore × Option String :=
  if tag = "a" ∧ (dictLookup ad "href").isSome then
    let href := (dictLookup ad "href").getD ""
    ({ c with current_sitelink := { c.current_sitelink with url := unwrapUrl href },
              capture := .verbatim }, some "sitelink_title_link")
  else (c, none)

/-- Dispatch to the installed start handler's body (the `ignore` case is
handled before the body runs, in `handleStart`). -/
def startBody : Scope → PCore → String → List (String × String) → PCore × Option String
  | .root, c, t, ad => root_start c t ad
  | .result, c, t, ad => result_start c t ad
  | .title, c, t, ad => title_start c t ad
  | .abstract, c, t, ad => abstract_start c t ad
  | .sitelink_table, c, t, ad => sitelink_table_start c t ad
  | .sitelink, c, t, ad => sitelink_start c t ad
  | .sitelink_title, c, t, ad => sitelink_title_start c t ad
  | .ignore, c, _, _ => (c, none)

/-! ### End-tag handler bodies (the `@retrieve_tag_annotation`-decorated
methods, given the popped annotation). -/

/-- `root_end`. -/
def root_end (c : PCore) (ann : Option String) : Except PyErr PCore :=
  if ann = some "spell" then
    .ok { c with capture := .off, suggested_spelling := some c.textbuf, textbuf := "" }
  else .ok c

/-- `result_end`: on the `result` annotation, register a `Result` (only when a
URL was captured) and hand control back to `root`. -/
def result_end (c : PCore) (ann : Option String) : Except PyErr PCore :=
  match ann with
  | some "result" =>
    if c.url ≠ "" then
      match Result.init (c.index + 1) c.title c.url c.abstract
          (if c.metadata ≠ "" then some c.metadata else none) (some c.sitelinks) with
      | .ok r => .ok { c with index := c.index + 1, results := c.results ++ [r], scope := .root }
      | .error e => .error e
    else .ok { c with scope := .root }
  | some "news_metadata" =>
    .ok { c with capture := .off, metadata := c.textbuf, textbuf := "",
                 metadata_registered := true }
  | some "news_abstract" =>
    .ok { c with capture := .off, abstract := c.textbuf, textbuf := "",
                 abstract_registered := true }
  | some "abstract_gservices" =>
    .ok { c with capture := .off, abstract := replaceAll c.textbuf "  " " ", textbuf := "",
                 abstract_registered := false }
  | _ => .ok c

/-- `title_end`. -/
def title_end (c : PCore) (ann : Option String) : Except PyErr PCore :=
  match ann with
  | some "title_filetype" => .ok { c with capture := .off }
  | some "title_link" =>
    .ok { c with capture := .off, title := c.textbuf, textbuf := "", title_registered := true }
  | some "title" => .ok { c with scope := .result }
  | _ => .ok c

/-- `abstract_end`. -/
def abstract_end (c : PCore) (ann : Option String) : Except PyErr PCore :=
  match ann with
  | some "abstract_text" =>
    .ok { c with capture := .off, abstract := c.textbuf, textbuf := "",
                 abstract_registered := false }
  | some "abstract" => .ok { c with scope := .result }
  | _ => .ok c

/-- `sitelink_table_end`. -/
def sitelink_table_end (c : PCore) (ann : Option String) : Except PyErr PCore :=
  if ann = some "sitelink_table" then .ok { c with scope := .result } else .ok c

/-- `sitelink_end`: a finished sitelink is appended only when it carries a
non-empty URL. -/
def sitelink_end (c : PCore) (ann : Option String) : Except PyErr PCore :=
  match ann with
  | some "sitelink_abstract" =>
    .ok { c with capture := .off,
                 current_sitelink := { c.current_sitelink with abstract := c.textbuf },
                 textbuf := "" }
  | some "sitelink" =>
    .ok { c with
          sitelinks := if c.current_sitelink.url ≠ "" then c.sitelinks ++ [c.current_sitelink]
                       else c.sitelinks,
          scope := .sitelink_table }
  | _ => .ok c

/-- `sitelink_title_end`. -/
def sitelink_title_end (c : PCore) (ann : Option String) : Except PyErr PCore :=
  match ann with
  | some "sitelink_title_link" =>
    .ok { c with capture := .off,
                 current_sitelink := { c.current_sitelink with title := c.textbuf },
                 textbuf := "" }
  | some "sitelink_title" => .ok { c with scope := .sitelink }
  | _ => .ok c

/-- `ignore_end`: on a `SCOPE_ignored` annotation, strip the 8-character
suffix and restore the outer scope via `set_handlers_to` (an unknown scope
name would be an `AttributeError` from `getattr`). -/
def ignore_end (c : PCore) (ann : Option String) : Except PyErr PCore :=
  match ann with
  | some a =>
    if a ≠ "" ∧ strEndsWith a "_ignored" then
      match scopeOfName (a.dropRight 8) with
      | some sc => .ok { c with scope := sc }
      | none => .error .attributeError
    else .ok c
  | none => .ok c

/-- Dispatch to the installed end handler's body. -/
def endBody : Scope → PCore → Option String → Except PyErr PCore
  | .root, c, ann => root_end c ann
  | .result, c, ann => result_end c ann
  | .title, c, ann => title_end c ann
  | .abstract, c, ann => abstract_end c ann
  | .sitelink_table, c, ann => sitelink_table_end c ann
  | .sitelink, c, ann => sitelink_end c ann
  | .sitelink_title, c, ann => sitelink_title_end c ann
  | .ignore, c, ann => ignore_end c ann

/-! ### Tag-annotation stacks -/

/-- `self.tag_annotations`: a dict from tag name to a stack (list, top at the
end) of optional annotations. -/
abbrev AnnDict := List (String × List (Option String))

/-- Association lookup in the annotation dict. -/
def annLookup : AnnDict → String → Option (List (Option String))
  | [], _ => none
  | (u, l) :: rest, t => if u = t then some l else annLookup rest t

/-- Replace the stack stored for `t` (no-op when `t` has no entry), keeping
insertion order — a Python in-place `dict` value mutation. -/
def annUpdate : AnnDict → String → List (Option String) → AnnDict
  | [], _, _ => []
  | (u, l) :: rest, t, l' => if u = t then (u, l') :: rest else (u, l) :: annUpdate rest t l'

/-- `insert_annotation(tag, annotation)`: create the entry if missing, then
append. -/
def annPush (d : AnnDict) (t : String) (a : Option String) : AnnDict :=
  match annLookup d t with
  | none => d ++ [(t, [a])]
  | some l => annUpdate d t (l ++ [a])

/-- The pop of `retrieve_tag_annotation`: `self.tag_annotations[tag].pop()`.
`none` models the uncaught `KeyError` when the tag name has no entry at all;
an existing but empty stack raises `IndexError`, which IS caught and yields
annotation `None` with the dict unchanged. -/
def annPop (d : AnnDict) (t : String) : Option (Option String × AnnDict) :=
  match annLookup d t with
  | none => none
  | some [] => some (none, d)
  | some (x :: xs) => some ((x :: xs).getLastD none, annUpdate d t (x :: xs).dropLast)

/-! ### The parser state and stepping -/

/-- Full parser state: core registers/handlers plus the tag-annotation dict. -/
structure PState where
  core : PCore
  anns : AnnDict
deriving DecidableEq

/-- One handler event as delivered by `html.parser.HTMLParser.feed` (with the
default `convert_charrefs=True`, character and entity references arrive merged
into `text` events; attribute values arrive entity-unescaped). -/
inductive Event
  | startTag (tag : String) (attrs : List (String × String))
  | endTag (tag : String)
  | text (data : String)
deriving DecidableEq

/-- `handle_starttag` = the `annotate_tag` decorator around the installed
`SCOPE_start` body: in `ignore` scope annotate `None` without any test;
otherwise convert `attrs` to a dict, test the ignore list (annotating
`SCOPE_ignored` and switching to `ignore` scope on a match), else run the
body and push its annotation. -/
def handleStart (st : PState) (t : String) (attrs : List (String × String)) : PState :=
  if st.core.scope = .ignore then { st with anns := annPush st.anns t none }
  else
    let ad := pyDict attrs
    if ignoreMatch t ad then
      { core := { st.core with scope := .ignore },
        anns := annPush st.anns t (some (scopeName st.core.scope ++ "_ignored")) }
    else
      let (c', ann) := startBody st.core.scope st.core t ad
      { core := c', anns := annPush st.anns t ann }

/-- `handle_endtag` = the `retrieve_tag_annotation` decorator around the
installed `SCOPE_end` body: pop the per-tag-name stack (`KeyError` escapes for
a never-seen tag name; `IndexError` on an empty stack is absorbed as
annotation `None`), then run the body with the retrieved annotation. -/
def handleEnd (st : PState) (t : String) : Except PyErr PState :=
  match annPop st.anns t with
  | none => .error .keyError
  | some (ann, anns') =>
    match endBody st.core.scope st.core ann with
    | .ok c' => .ok { core := c', anns := anns' }
    | .error e => .error e

/-- One tokenizer-delivered event. -/
def pstep (st : PState) (e : Event) : Except PyErr PState :=
  match e with
  | .text s => .ok { st with core := recordData st.core s }
  | .startTag t attrs => .ok (handleStart st t attrs)
  | .endTag t => handleEnd st t

/-- Feed a sequence of events; an uncaught exception aborts the parse. -/
def runEvents (st : PState) : List Event → Except PyErr PState
  | [] => .ok st
  | e :: rest =>
    match pstep st e with
    | .ok st' => runEvents st' rest
    | .error err => .error err

/-- `GoogleParser.__init__(news=...)` under the module user-agent flag `ua`:
fresh side signals, empty result list, empty text buffer and annotation dict,
handlers set to `root` with data recording off. The in-flight registers are
first created by `root_start`; they are given inert defaults here. -/
def pInit (news ua : Bool) : PState :=
  { core := { news := news, ua := ua, autocorrected := false, suggested_spelling := none,
              filtered := false, results := [], index := 0, textbuf := "", scope := .root,
              capture := .off, title := "", url := "", abstract := "", metadata := "",
              sitelinks := [], title_registered := false, abstract_registered := false,
              metadata_registered := false, current_sitelink := ⟨"", "", "", ""⟩ },
    anns := [] }

/-- The results list visible after feeding a document (empty when the parse
died on an uncaught exception). -/
def resultsOf (r : Except PyErr PState) : List Result :=
  match r with
  | .ok st => st.core.results
  | .error _ => []

/-! ## `GoogleConnection`: fetch, retry, redirect

The network is abstracted by an oracle: the `i`-th `_raw_get` call either
produces a response or raises `http.client.HTTPException` / `OSError`, and the
`i`-th `new_connection` call either succeeds or raises its wrapped
`GoogleConnectionError`. Gzip decompression and UTF-8 decoding of the payload
are standard-library behaviour and are modelled by carrying the decoded
payload text in the response. Cookie bookkeeping of `_raw_get` is modelled
separately below (`sentCookies`), as it is orthogonal to the retry logic. -/

/-- Exception classes at the connection layer. -/
inductive PyExc
  | googleConnectionError (msg : String)
  | httpException
  | osError
deriving DecidableEq

/-- An HTTP response as consumed by `fetch_page`: status, the
`getheader('location', '')` value, the reason phrase, and the decoded payload. -/
structure HttpResp where
  status : Nat
  location : String
  reason : String
  payload : String
deriving DecidableEq

/-- Outcome of one `_raw_get` call. -/
inductive RawRes
  | resp (r : HttpResp)
  | httpExc
  | osErr

/-- The network oracle and mutable connection counters. -/
structure FetchEnv where
  rawResults : Nat → RawRes
  renewFails : Nat → Bool

/-- Connection-object state relevant to `fetch_page`: current host and how
many `_raw_get` / `new_connection` calls have happened. -/
structure FetchSt where
  host : String
  rawCount : Nat
  renewCount : Nat
deriving DecidableEq

/-- `_raw_get(url)`: consult the oracle for this call's outcome. -/
def rawGet (env : FetchEnv) (st : FetchSt) (_url : String) : FetchSt × RawRes :=
  ({ st with rawCount := st.rawCount + 1 }, env.rawResults st.rawCount)

/-- `new_connection(host)`: close and re-establish; a connect failure raises
`GoogleConnectionError` wrapping the transport error. -/
def newConn (env : FetchEnv) (st : FetchSt) (host : String) : FetchSt × Option PyExc :=
  ({ st with renewCount := st.renewCount + 1, host := host },
   if env.renewFails st.renewCount then
     some (.googleConnectionError ("Failed to connect to " ++ host ++ ".")) else none)

/-- `urlparse(url).netloc` for the absolute/scheme-relative/relative HTTP(S)
URL shapes a `Location` header can take. -/
def netlocOf (url : String) : String :=
  if strStartsWith url "http://" ∨ strStartsWith url "https://" ∨ strStartsWith url "//" then
    let rest := if strStartsWith url "https://" then url.drop 8
                else if strStartsWith url "http://" then url.drop 7 else url.drop 2
    match rest.toList.findIdx? (fun c => c = '/' ∨ c = '?' ∨ c = '#') with
    | none => rest
    | some i => String.mk (rest.toList.take i)
  else ""

/-- `urlunparse(('', '') + segments[2:])`: the URL with scheme and authority
stripped. -/
def relOf (url : String) : String :=
  if strStartsWith url "http://" ∨ strStartsWith url "https://" ∨ strStartsWith url "//" then
    let rest := if strStartsWith url "https://" then url.drop 8
                else if strStartsWith url "http://" then url.drop 7 else url.drop 2
    match rest.toList.findIdx? (fun c => c = '/' ∨ c = '?' ∨ c = '#') with
    | none => ""
    | some i => String.mk (rest.toList.drop i)
  else url

/-- `_redirect(url)`: reconnect when the target is on a different host, then
one `_raw_get` of the stripped URL; only `HTTPException` is converted to
`GoogleConnectionError` here. -/
def redirectFetch (env : FetchEnv) (st : FetchSt) (url : String) :
    FetchSt × Except PyExc HttpResp :=
  let host := netlocOf url
  let (st1, connErr) := if host ≠ st.host then newConn env st host else (st, none)
  match connErr with
  | some e => (st1, .error e)
  | none =>
    match rawGet env st1 (relOf url) with
    | (st2, .resp r) => (st2, .ok r)
    | (st2, .httpExc) =>
      (st2, .error (.googleConnectionError ("Failed to get '" ++ url ++ "'.")))
    | (st2, .osErr) => (st2, .error .osError)

/-- The redirect `while` loop of `fetch_page` (`fuel = 3 - redirect_counter`):
on a 301/302/303/307/308, first test the `Location` value for the
"blocked due to unusual activity" patterns and fail immediately on a match,
otherwise follow the redirect; any other non-200 status exits the loop. -/
def redirectLoop (env : FetchEnv) : Nat → FetchSt → HttpResp → FetchSt × Except PyExc HttpResp
  | 0, st, resp => (st, .ok resp)
  | fuel + 1, st, resp =>
    if resp.status = 200 then (st, .ok resp)
    else if resp.status = 301 ∨ resp.status = 302 ∨ resp.status = 303 ∨
        resp.status = 307 ∨ resp.status = 308 then
      if strContains resp.location "sorry/IndexRedirect?" ∨
          strContains resp.location "sorry/index?" then
        (st, .error (.googleConnectionError "Connection blocked due to unusual activity."))
      else
        match redirectFetch env st resp.location with
        | (st', .error e) => (st', .error e)
        | (st', .ok resp') => redirectLoop env fuel st' resp'
    else (st, .ok resp)

/-- `fetch_page(url)`: one `_raw_get`; on `HTTPException` or `OSError`,
`renew_connection` and exactly one retry, whose `HTTPException` (only) is
converted to `GoogleConnectionError`; then the bounded redirect loop and the
final status check. The final connection state is returned alongside the
outcome, since the connection object survives a raised exception. -/
def fetch_page (env : FetchEnv) (st : FetchSt) (url : String) :
    FetchSt × Except PyExc String :=
  let firstStage : FetchSt × Except PyExc HttpResp :=
    match rawGet env st url with
    | (st1, .resp r) => (st1, .ok r)
    | (st1, .httpExc) | (st1, .osErr) =>
      match newConn env st1 st1.host with
      | (st2, some e) => (st2, .error e)
      | (st2, none) =>
        match rawGet env st2 url with
        | (st3, .resp r) => (st3, .ok r)
        | (st3, .httpExc) =>
          (st3, .error (.googleConnectionError ("Failed to get '" ++ url ++ "'.")))
        | (st3, .osErr) => (st3, .error .osError)
  match firstStage with
  | (st', .error e) => (st', .error e)
  | (st', .ok resp) =>
    match redirectLoop env 3 st' resp with
    | (st'', .error e) => (st'', .error e)
    | (st'', .ok fresp) =>
      if fresp.status = 200 then (st'', .ok fresp.payload)
      else (st'', .error (.googleConnectionError
        ("Got HTTP " ++ toString fresp.status ++ ": " ++ fresp.reason)))

/-! ## Cookie capture in `_raw_get` -/

/-- The capture expression `complete_cookie[:complete_cookie.find(';')]`:
everything before the first `;`, or — `find` returning `-1` — everything but
the last character when no `;` occurs. -/
def cookieCut (v : String) : String :=
  pySliceUpto v (pyFindChar v ';')

/-- One `_raw_get` request/response from the cookie perspective: the request
carries the current `self.cookie`; afterwards, only while the stored cookie is
still empty, a present `Set-Cookie` header is cut and stored. -/
def cookieStep (cookie : String) (setCookie : Option String) : String × String :=
  (cookie,
   if cookie = "" then
     match setCookie with
     | some v => cookieCut v
     | none => cookie
   else cookie)

/-- The `Cookie` header value sent on each of a sequence of requests, given
each response's `Set-Cookie` header (`none` when absent). -/
def sentCookies (cookie : String) : List (Option String) → List String
  | [] => []
  | sc :: rest =>
    let (sent, c') := cookieStep cookie sc
    sent :: sentCookies c' rest

/-- The cookie value the connection has stored after a sequence of responses:
the first non-empty cut of a `Set-Cookie` value, or empty. -/
def firstStoredCookie : List (Option String) → String
  | [] => ""
  | some v :: rest => if cookieCut v ≠ "" then cookieCut v else firstStoredCookie rest
  | none :: rest => firstStoredCookie rest

/-! ## Concrete scenarios and auxiliary relations used by the theorems -/

/-- The minimal single-result document of the end-to-end scenario: one result
container with a redirect-wrapped title link and an abstract container, as the
event sequence `HTMLParser` delivers for it. -/
def c5doc : List Event :=
  [.startTag "div" [("class", "g")],
   .startTag "h3" [("class", "r")],
   .startTag "a" [("href", "/url?q=http%3A%2F%2Fexample.com%2Fx&sa=U")],
   .text "Example",
   .endTag "a",
   .endTag "h3",
   .startTag "div" [("class", "s")],
   .startTag "span" [("class", "st")],
   .text "An example site.",
   .endTag "span",
   .endTag "div",
   .endTag "div"]

/-- The `Result` the minimal document should produce. -/
def c5result : Result :=
  { index := "1", title := "Example", url := "http://example.com/x",
    abstract := "An example site.", metadata := none, sitelinks := [],
    urltable := [("1", "http://example.com/x")] }

/-- One otherwise-valid result container whose abstract text region contains a
nested ignore-listed container (`div.g-blk`) holding literal text. -/
def c4docWithIgnored : List Event :=
  [.startTag "div" [("class", "g")],
   .startTag "h3" [("class", "r")],
   .startTag "a" [("href", "http://x/")],
   .text "T",
   .endTag "a",
   .endTag "h3",
   .startTag "div" [("class", "s")],
   .startTag "span" [("class", "st")],
   .text "A",
   .startTag "div" [("class", "g-blk")],
   .text "LEAK",
   .endTag "div",
   .endTag "span",
   .endTag "div",
   .endTag "div"]

/-- The same document with the ignored subtree physically removed. -/
def c4docRemoved : List Event :=
  [.startTag "div" [("class", "g")],
   .startTag "h3" [("class", "r")],
   .startTag "a" [("href", "http://x/")],
   .text "T",
   .endTag "a",
   .endTag "h3",
   .startTag "div" [("class", "s")],
   .startTag "span" [("class", "st")],
   .text "A",
   .endTag "span",
   .endTag "div",
   .endTag "div"]

/-- Well-nested event sequences: a sequence of text chunks and properly
closed tag nodes with well-nested bodies (the shape of the contents of an
ignored container whose descendant tags are all closed inside it). -/
inductive Forest : List Event → Prop
  | nil : Forest []
  | text (s : String) {rest : List Event} : Forest rest → Forest (.text s :: rest)
  | node (t : String) (attrs : List (String × String)) {inner rest : List Event} :
      Forest inner → Forest rest →
      Forest (.startTag t attrs :: (inner ++ (.endTag t :: rest)))

/-- Annotation dicts agreeing up to extra entries that hold an empty stack:
processing a balanced subtree leaves behind empty stacks for tag names it
introduced, which are observationally inert except that popping them raises
the caught `IndexError` instead of the uncaught `KeyError`. -/
def annRel (a b : AnnDict) : Prop :=
  ∀ t, annLookup a t = annLookup b t ∨ (annLookup a t = some [] ∧ annLookup b t = none)

/-- Parser states with identical cores whose annotation dicts agree up to
extra empty stacks. -/
def StEquiv (a b : PState) : Prop :=
  a.core = b.core ∧ annRel a.anns b.anns

/-- Oracle for the double-transport-failure scenario: every `_raw_get` raises
`OSError`, reconnection succeeds. -/
def c2env : FetchEnv :=
  { rawResults := fun _ => .osErr, renewFails := fun _ => false }

/-- A freshly connected `GoogleConnection` to the default host. -/
def conn0 : FetchSt :=
  { host := "www.google.com", rawCount := 0, renewCount := 0 }

/-- A 302 response whose `Location` matches the "unusual activity" pattern. -/
def blockedResp : HttpResp :=
  { status := 302,
    location := "https://www.google.com/sorry/index?continue=https://www.google.com/search",
    reason := "Found", payload := "" }

/-- Oracle delivering the blocked redirect on the first GET. -/
def c3envBlocked : FetchEnv :=
  { rawResults := fun _ => .resp blockedResp, renewFails := fun _ => false }

/-- Oracle for a generic connection failure: every GET raises
`http.client.HTTPException`, reconnection succeeds. -/
def c3envGeneric : FetchEnv :=
  { rawResults := fun _ => .httpExc, renewFails := fun _ => false }

/-- A reachable query state with keywords, page size 10 and start offset 3. -/
def c8url : GoogleUrl :=
  GoogleUrl.init { keywords := some (.ofStr "hello"), num := some 10, start := some 3 }

/-! # Theorems -/

/-! ## C1 — unmatched closing tags -/

/-- C1: a closing tag whose per-tag-name stack exists but is empty is indeed
absorbed (`IndexError` is caught, the tag is a no-op, second conjunct), but a
closing tag for a tag name that never had any opening tag raises an uncaught
`KeyError` out of `feed` (first conjunct): the parser does NOT complete on
every input, contrary to the claim. Feeding the one-event document `</div>`
crashes; the seen-name document `<div></div></div>` leaves the parser state
unchanged apart from the emptied annotation stack. -/
theorem C1_unmatched_close_tag :
    runEvents (pInit false true) [Event.endTag "div"] = .error PyErr.keyError ∧
    (runEvents (pInit false true)
        [Event.startTag "div" [], Event.endTag "div", Event.endTag "div"]).toOption.map PState.core
      = some (pInit false true).core :=
  ⟨rfl, rfl⟩

/-! ## C2 — retry semantics of `fetch_page` -/

/-- C2: when both the first GET and the post-reconnect retry fail with a
transport-level `OSError`, `fetch_page` performs exactly one reconnection and
exactly two GET attempts (no third), but the second failure escapes as the raw
`OSError` — not as `GoogleConnectionError` — because the retry's `except`
clause catches only `http.client.HTTPException`. -/
theorem C2_second_attempt_oserror_raw :
    fetch_page c2env conn0 "/search?q=x" =
      ({ host := "www.google.com", rawCount := 2, renewCount := 1 },
       .error PyExc.osError) :=
  rfl

/-! ## C3 — the "blocked" condition -/

/-- C3 (counterexample): the blocked-redirect failure and a generic fetch
failure are raised as the very same exception class — both are
`GoogleConnectionError`, distinguishable only by message text — so the blocked
condition is not distinct from the generic connection-error. -/
theorem C3_blocked_same_exception_class :
    (fetch_page c3envBlocked conn0 "/search?q=x").2 =
      .error (.googleConnectionError "Connection blocked due to unusual activity.") ∧
    (fetch_page c3envGeneric conn0 "/search?q=x").2 =
      .error (.googleConnectionError "Failed to get '/search?q=x'.") :=
  ⟨rfl, rfl⟩

/-- C3 (amended): whenever a fetch receives a redirect status
(301/302/303/307/308) whose `Location` matches a known "blocked due to unusual
activity" pattern, `fetch_page` raises `GoogleConnectionError` — the same
exception class as the generic connection-error — carrying the distinct
message "Connection blocked due to unusual activity.", and does so
immediately: exactly one GET was issued and no reconnection and no redirect
fetch happens. -/
theorem C3_blocked_message_immediate (env : FetchEnv) (st : FetchSt) (url : String)
    (r : HttpResp)
    (hf : env.rawResults st.rawCount = .resp r)
    (hs : r.status = 301 ∨ r.status = 302 ∨ r.status = 303 ∨ r.status = 307 ∨ r.status = 308)
    (hb : strContains r.location "sorry/IndexRedirect?" = true ∨
          strContains r.location "sorry/index?" = true) :
    fetch_page env st url =
      ({ st with rawCount := st.rawCount + 1 },
       .error (.googleConnectionError "Connection blocked due to unusual activity.")) := by
  have h200 : ¬(r.status = 200) := by rcases hs with h | h | h | h | h <;> simp [h]
  have hloop : ∀ (fuel : Nat) (st' : FetchSt), redirectLoop env (fuel + 1) st' r =
      (st', .error (.googleConnectionError "Connection blocked due to unusual activity.")) := by
    intro fuel st'
    simp only [redirectLoop]
    rw [if_neg h200, if_pos hs, if_pos hb]
  simp only [fetch_page, rawGet, hf]
  rw [show (3 : Nat) = 2 + 1 from rfl, hloop 2]

/-- Witness for C3: the blocked scenario oracle satisfies the hypotheses, and
the fetch fails immediately with the blocked `GoogleConnectionError`. -/
theorem C3_blocked_message_immediate_witness :
    fetch_page c3envBlocked conn0 "/search?q=x" =
      ({ conn0 with rawCount := 1 },
       .error (.googleConnectionError "Connection blocked due to unusual activity.")) :=
  C3_blocked_message_immediate c3envBlocked conn0 "/search?q=x" blockedResp rfl
    (Or.inr (Or.inl rfl)) (Or.inr rfl)

/-! ## C5 — end-to-end minimal document -/

/-- C5: the minimal document with one result container, a redirect-wrapped
title link `href="/url?q=http%3A%2F%2Fexample.com%2Fx&sa=U"` with inner text
"Example", and an abstract container with text "An example site." parses to
exactly one `Result` with the unwrapped, percent-decoded URL
`http://example.com/x`, title "Example", abstract "An example site." and no
sitelinks. -/
theorem C5_minimal_document_parse :
    resultsOf (runEvents (pInit false true) c5doc) = [c5result] :=
  rfl

/-! ## C6 — every emitted result carries a non-empty URL -/

/-- `handle_data` never touches the results list. -/
theorem recordData_results (c : PCore) (s : String) : (recordData c s).results = c.results := by
  unfold recordData
  split <;> rfl

/-- No start-tag handler body touches the results list. -/
theorem startBody_results (s : Scope) (c : PCore) (t : String) (ad : List (String × String)) :
    (startBody s c t ad).1.results = c.results := by
  cases s <;>
    simp only [startBody, root_start, result_start, title_start, abstract_start,
      sitelink_table_start, sitelink_start, sitelink_title_start] <;>
    split_ifs <;> rfl

/-- `handle_starttag` never touches the results list. -/
theorem handleStart_results (st : PState) (t : String) (attrs : List (String × String)) :
    (handleStart st t attrs).core.results = st.core.results := by
  simp only [handleStart]
  split_ifs
  · rfl
  · rfl
  · rcases hsb : startBody st.core.scope st.core t (pyDict attrs) with ⟨c', ann⟩
    have h2 := startBody_results st.core.scope st.core t (pyDict attrs)
    rw [hsb] at h2
    simpa using h2

/-- A successfully constructed `Result` carries the URL it was given. -/
theorem Result.init_url {i : Nat} {t u a : String} {m : Option String} {sls : List Sitelink}
    {r : Result} (h : Result.init i t u a m (some sls) = .ok r) : r.url = u := by
  injection h with h
  rw [← h]

/-- `root_end` never touches the results list. -/
theorem root_end_results {c : PCore} {ann : Option String} {c' : PCore}
    (h : root_end c ann = .ok c') : c'.results = c.results := by
  unfold root_end at h
  split_ifs at h <;> (injection h with h; subst h; rfl)

/-- `title_end` never touches the results list. -/
theorem title_end_results {c : PCore} {ann : Option String} {c' : PCore}
    (h : title_end c ann = .ok c') : c'.results = c.results := by
  unfold title_end at h
  split at h <;> (injection h with h; subst h; rfl)

/-- `abstract_end` never touches the results list. -/
theorem abstract_end_results {c : PCore} {ann : Option String} {c' : PCore}
    (h : abstract_end c ann = .ok c') : c'.results = c.results := by
  unfold abstract_end at h
  split at h <;> (injection h with h; subst h; rfl)

/-- `sitelink_table_end` never touches the results list. -/
theorem sitelink_table_end_results {c : PCore} {ann : Option String} {c' : PCore}
    (h : sitelink_table_end c ann = .ok c') : c'.results = c.results := by
  unfold sitelink_table_end at h
  split_ifs at h <;> (injection h with h; subst h; rfl)

/-- `sitelink_end` never touches the results list. -/
theorem sitelink_end_results {c : PCore} {ann : Option String} {c' : PCore}
    (h : sitelink_end c ann = .ok c') : c'.results = c.results := by
  unfold sitelink_end at h
  split at h <;> (injection h with h; subst h; rfl)

/-- `sitelink_title_end` never touches the results list. -/
theorem sitelink_title_end_results {c : PCore} {ann : Option String} {c' : PCore}
    (h : sitelink_title_end c ann = .ok c') : c'.results = c.results := by
  unfold sitelink_title_end at h
  split at h <;> (injection h with h; subst h; rfl)

/-- `ignore_end` never touches the results list. -/
theorem ignore_end_results {c : PCore} {ann : Option String} {c' : PCore}
    (h : ignore_end c ann = .ok c') : c'.results = c.results := by
  unfold ignore_end at h
  split at h
  · split_ifs at h
    · split at h
      · simp only [Except.ok.injEq] at h; subst h; rfl
      · cases h
    · simp only [Except.ok.injEq] at h; subst h; rfl
  · simp only [Except.ok.injEq] at h; subst h; rfl

/-- `result_end` only ever appends a `Result` guarded by a non-empty captured
URL. -/
theorem result_end_results {c : PCore} {ann : Option String} {c' : PCore}
    (h : result_end c ann = .ok c') {r : Result} (hr : r ∈ c'.results) :
    r ∈ c.results ∨ r.url ≠ "" := by
  unfold result_end at h
  split at h
  case h_1 =>
    by_cases hurl : c.url ≠ ""
    · rw [if_pos hurl] at h
      have hini : Result.init (c.index + 1) c.title c.url c.abstract
          (if c.metadata ≠ "" then some c.metadata else none) (some c.sitelinks) =
          .ok { index := toString (c.index + 1), title := c.title, url := c.url,
                abstract := c.abstract,
                metadata := (if c.metadata ≠ "" then some c.metadata else none),
                sitelinks := (sitelinkLoop (toString (c.index + 1)) 'a'.toNat c.sitelinks
                  [(toString (c.index + 1), c.url)]).1,
                urltable := (sitelinkLoop (toString (c.index + 1)) 'a'.toNat c.sitelinks
                  [(toString (c.index + 1), c.url)]).2 } := rfl
      rw [hini] at h
      injection h with h
      subst h
      have hr2 : r ∈ c.results ++
          [{ index := toString (c.index + 1), title := c.title, url := c.url,
             abstract := c.abstract,
             metadata := (if c.metadata ≠ "" then some c.metadata else none),
             sitelinks := (sitelinkLoop (toString (c.index + 1)) 'a'.toNat c.sitelinks
               [(toString (c.index + 1), c.url)]).1,
             urltable := (sitelinkLoop (toString (c.index + 1)) 'a'.toNat c.sitelinks
               [(toString (c.index + 1), c.url)]).2 }] := hr
      rcases List.mem_append.mp hr2 with hr3 | hr3
      · exact Or.inl hr3
      · rw [List.mem_singleton.mp hr3]
        exact Or.inr hurl
    · rw [if_neg hurl] at h
      injection h with h
      subst h
      exact Or.inl hr
  all_goals (injection h with h; subst h; exact Or.inl hr)

/-- Any end-tag handler either keeps the results list or appends a result
with a non-empty URL. -/
theorem endBody_results {s : Scope} {c : PCore} {ann : Option String} {c' : PCore}
    (h : endBody s c ann = .ok c') {r : Result} (hr : r ∈ c'.results) :
    r ∈ c.results ∨ r.url ≠ "" := by
  cases s <;> simp only [endBody] at h
  case result => exact result_end_results h hr
  case root => rw [root_end_results h] at hr; exact Or.inl hr
  case title => rw [title_end_results h] at hr; exact Or.inl hr
  case abstract => rw [abstract_end_results h] at hr; exact Or.inl hr
  case sitelink_table => rw [sitelink_table_end_results h] at hr; exact Or.inl hr
  case sitelink => rw [sitelink_end_results h] at hr; exact Or.inl hr
  case sitelink_title => rw [sitelink_title_end_results h] at hr; exact Or.inl hr
  case ignore => rw [ignore_end_results h] at hr; exact Or.inl hr

/-- One parser step either keeps a result in the list or it entered with a
non-empty URL. -/
theorem pstep_results {st : PState} {e : Event} {st' : PState} (h : pstep st e = .ok st')
    {r : Result} (hr : r ∈ st'.core.results) : r ∈ st.core.results ∨ r.url ≠ "" := by
  cases e with
  | text s =>
    injection h with h
    subst h
    rw [recordData_results] at hr
    exact Or.inl hr
  | startTag t attrs =>
    injection h with h
    subst h
    rw [handleStart_results] at hr
    exact Or.inl hr
  | endTag t =>
    simp only [pstep] at h
    unfold handleEnd at h
    split at h
    · cases h
    · split at h
      case _ c2 heq =>
        injection h with h
        subst h
        exact endBody_results heq hr
      · cases h

/-- Invariant propagation over an event sequence. -/
theorem runEvents_results {evs : List Event} :
    ∀ {st st' : PState}, runEvents st evs = .ok st' →
      ∀ r ∈ st'.core.results, r ∈ st.core.results ∨ r.url ≠ "" := by
  induction evs with
  | nil =>
    intro st st' h r hr
    injection h with h
    subst h
    exact Or.inl hr
  | cons e rest ih =>
    intro st st' h r hr
    simp only [runEvents] at h
    split at h
    case _ st1 heq =>
      rcases ih h r hr with h1 | h1
      · exact pstep_results heq h1
      · exact Or.inr h1
    · cases h

/-- C6: for every input document (any news/user-agent mode), every `Result`
in the parser's final results list carries a non-empty URL — a result
container inside which no URL was captured contributes no entry. -/
theorem C6_results_carry_nonempty_url (news ua : Bool) (evs : List Event) (r : Result)
    (hr : r ∈ resultsOf (runEvents (pInit news ua) evs)) : r.url ≠ "" := by
  rcases hrun : runEvents (pInit news ua) evs with err | st
  · rw [hrun] at hr
    cases hr
  · rw [hrun] at hr
    have hr' : r ∈ st.core.results := hr
    rcases runEvents_results hrun r hr' with h | h
    · cases h
    · exact h

/-- Witness for C6: the minimal document's single emitted result has a
non-empty URL. -/
theorem C6_results_carry_nonempty_url_witness : c5result.url ≠ "" :=
  C6_results_carry_nonempty_url false true c5doc c5result (List.Mem.head [])

/-! ## C8 — `next_page` then `prev_page` -/

/-- C8 (counterexample): from a reachable state with `start = 3` and page size
`num = 10`, `next_page()` then `prev_page()` restores `start = 3` — the whole
state is restored exactly — whereas the claim's clause "original start < n
implies prev_page() yields start = 0" demands `start = 0` here (3 < 10). -/
theorem C8_next_prev_restores_instead_of_clamping :
    c8url.start = 3 ∧ c8url.num = 10 ∧ c8url.next_page.prev_page = .ok c8url :=
  ⟨rfl, rfl, rfl⟩

/-- C8 (amended): for any state with page size `num ≥ 1`, `next_page()` then
`prev_page()` always restores the original state exactly (in particular the
original start offset, never a negative value — clamping to 0 coincides with
restoration since it only occurs for original start 0); in the degenerate
corner `num = 0`, `start = 0`, `prev_page()` instead raises the
"Already at the first page." `ValueError`, start staying 0. -/
theorem C8_next_then_prev_page (u : GoogleUrl) :
    (1 ≤ u.num → u.next_page.prev_page = .ok u) ∧
    (u.num = 0 → u.start = 0 →
      u.next_page.prev_page = .error (.valueError "Already at the first page.")) := by
  obtain ⟨sc, p, pa, f, tl, num, start, kw, si, qd⟩ := u
  dsimp only [GoogleUrl.next_page, GoogleUrl.prev_page]
  constructor
  · intro h
    split_ifs with h1 h2
    · omega
    · simp only [Except.ok.injEq, GoogleUrl.mk.injEq, true_and, and_true]
      omega
    · simp only [Except.ok.injEq, GoogleUrl.mk.injEq, true_and, and_true]
      omega
  · intro h0 hs0
    split_ifs with h1
    · rfl
    · omega

/-- Witness for C8: the `start = 3`, `num = 10` state round-trips, and the
`num = 0`, `start = 0` corner raises the boundary `ValueError`. -/
theorem C8_next_then_prev_page_witness :
    c8url.next_page.prev_page = .ok c8url ∧
    (GoogleUrl.init { num := some 0 }).next_page.prev_page =
      .error (.valueError "Already at the first page.") :=
  ⟨(C8_next_then_prev_page c8url).1 (by decide),
   (C8_next_then_prev_page (GoogleUrl.init { num := some 0 })).2 rfl rfl⟩

/-! ## C9 — cookie capture -/

/-- C9 (counterexample): a first response whose `Set-Cookie` value "abc"
contains no `;` leads the client to store and resend "ab" — the value with
its last character cut off (`find` returns `-1`, and the Python slice
`v[:-1]` drops the final character) — not the whole value "abc" that "the
portion preceding the first `;`" denotes when no `;` occurs. -/
theorem C9_cookie_without_semicolon_truncated :
    sentCookies "" [some "abc", none] = ["", "ab"] ∧ cookieCut "abc" = "ab" :=
  ⟨rfl, rfl⟩

/-- Once non-empty, the stored cookie never changes. -/
theorem sentCookies_stable (c : String) (h : ¬(c = "")) (resps : List (Option String)) :
    sentCookies c resps = List.replicate resps.length c := by
  induction resps with
  | nil => rfl
  | cons sc rest ih =>
    simp only [sentCookies, cookieStep, if_neg h]
    cases sc <;> simp [List.replicate, ih]

/-- C9 (amended): on each request of a connection the client sends as `Cookie`
header the first non-empty captured prefix among the `Set-Cookie` values of
the earlier responses (and the empty string before any such capture), where
the captured prefix of a value is the portion before its first `;` when one
occurs and the value minus its final character otherwise; in particular,
capture happens on the first response whose captured prefix is non-empty, and
that value is then resent on every subsequent request of the connection. -/
theorem C9_cookie_capture_policy (resps : List (Option String)) :
    sentCookies "" resps = (List.range resps.length).map
      (fun i => firstStoredCookie (resps.take i)) := by
  induction resps with
  | nil => rfl
  | cons sc rest ih =>
    have hpt : ∀ i : Nat, ((fun i => firstStoredCookie (List.take i (sc :: rest))) ∘ Nat.succ) i
        = firstStoredCookie (sc :: List.take i rest) := fun _ => rfl
    have htail : sentCookies (cookieStep "" sc).2 rest =
        List.map ((fun i => firstStoredCookie (List.take i (sc :: rest))) ∘ Nat.succ)
          (List.range rest.length) := by
      cases sc with
      | none =>
        show sentCookies "" rest = _
        rw [ih]
        exact List.map_congr_left fun i _ => by rw [hpt i]; exact rfl
      | some v =>
        show sentCookies (cookieCut v) rest = _
        by_cases hcut : cookieCut v = ""
        · rw [hcut, ih]
          refine List.map_congr_left fun i _ => ?_
          rw [hpt i]
          show firstStoredCookie (List.take i rest) =
            firstStoredCookie (some v :: List.take i rest)
          simp [firstStoredCookie, hcut]
        · rw [sentCookies_stable _ hcut]
          have hconst :
              List.map ((fun i => firstStoredCookie (List.take i (some v :: rest))) ∘ Nat.succ)
                (List.range rest.length) =
              List.map (fun _ => cookieCut v) (List.range rest.length) :=
            List.map_congr_left fun i _ => by
              rw [hpt i]
              show firstStoredCookie (some v :: List.take i rest) = cookieCut v
              simp [firstStoredCookie, hcut]
          rw [hconst]
          simp [List.eq_replicate_iff]
    show ("" :: sentCookies (cookieStep "" sc).2 rest) = _
    rw [List.length_cons, List.range_succ_eq_map, List.map_cons, List.map_map, htail]
    rfl

/-! ## C10 — `Result.__init__` and the sitelink table -/

/-- The sitelink loop assigns `index + letter` sub-indices in encounter
order, with letters `chr(ord('a') + k)`. -/
theorem sitelinkLoop_fst (indexS : String) (sls : List Sitelink) :
    ∀ (sub : Nat) (tab : List (String × String)),
      (sitelinkLoop indexS sub sls tab).1 =
        sls.mapIdx fun k sl => { sl with index := indexS.push (Char.ofNat (sub + k)) } := by
  induction sls with
  | nil => intro sub tab; rfl
  | cons sl rest ih =>
    intro sub tab
    simp only [sitelinkLoop, List.mapIdx_cons, ih]
    refine congrArg₂ List.cons rfl ?_
    refine congrArg (fun f => List.mapIdx f rest) ?_
    funext k sl'
    have hk : sub + 1 + k = sub + (k + 1) := by omega
    rw [hk]

/-- C10: constructing a `Result` without the `sitelinks` argument (its default
`None`) raises `TypeError`, because the table-building loop iterates the raw
parameter instead of the normalized `self.sitelinks`; a call passing an
explicit list succeeds, its sitelink sub-indices assigned in encounter order
as the parent index followed by `a`, `b`, `c`, …, and an empty list yields a
url table holding only the primary index entry. -/
theorem C10_result_init_sitelinks (i : Nat) (t u a : String) (m : Option String) :
    Result.init i t u a m none = .error .typeError ∧
    (∀ sls : List Sitelink, ∃ r : Result,
        Result.init i t u a m (some sls) = .ok r ∧
        r.sitelinks = sls.mapIdx (fun k sl =>
          { sl with index := (toString i).push (Char.ofNat ('a'.toNat + k)) }) ∧
        r.url = u ∧ r.index = toString i) ∧
    (∃ r : Result, Result.init i t u a m (some []) = .ok r ∧
        r.urltable = [(toString i, u)]) := by
  refine ⟨rfl, fun sls => ?_, ?_⟩
  · exact ⟨_, rfl, sitelinkLoop_fst (toString i) sls 'a'.toNat [(toString i, u)], rfl, rfl⟩
  · exact ⟨_, rfl, rfl⟩

/-! ## C7 — shape of the rendered query string -/

/-- `dict` lookup after `d[k] = v`. -/
theorem dictLookup_dictSet (d : List (String × String)) (k v k' : String) :
    dictLookup (dictSet d k v) k' = if k' = k then some v else dictLookup d k' := by
  induction d with
  | nil =>
    by_cases h : k' = k
    · subst h; simp [dictSet, dictLookup]
    · simp [dictSet, dictLookup, h, Ne.symm h]
  | cons kv rest ih =>
    rcases kv with ⟨a, b⟩
    by_cases hak : a = k
    · subst hak
      simp only [dictSet, if_pos rfl]
      by_cases hk' : k' = a
      · subst hk'; simp [dictLookup]
      · simp [dictLookup, hk', Ne.symm hk']
    · simp only [dictSet, if_neg hak, dictLookup]
      by_cases hk' : a = k'
      · subst hk'
        simp [hak]
      · simp [hk', ih]

/-- `d[k] = v` keeps the key list, appending `k` only when it is new. -/
theorem keys_dictSet (d : List (String × String)) (k v : String) :
    (dictSet d k v).map Prod.fst =
      if k ∈ d.map Prod.fst then d.map Prod.fst else d.map Prod.fst ++ [k] := by
  induction d with
  | nil => simp [dictSet]
  | cons kv rest ih =>
    rcases kv with ⟨a, b⟩
    by_cases hak : a = k
    · subst hak
      simp [dictSet]
    · simp only [dictSet, if_neg hak, List.map_cons, ih]
      by_cases hk : k ∈ rest.map Prod.fst
      · simp [hk, Ne.symm hak]
      · simp [hk, Ne.symm hak]

/-- The key just set is present. -/
theorem mem_keys_dictSet_self (d : List (String × String)) (k v : String) :
    k ∈ (dictSet d k v).map Prod.fst := by
  rw [keys_dictSet]
  split_ifs with h
  · exact h
  · simp

/-- Keys survive `d[k] = v`. -/
theorem mem_keys_dictSet_of (d : List (String × String)) (k v k' : String)
    (h : k' ∈ d.map Prod.fst) : k' ∈ (dictSet d k v).map Prod.fst := by
  rw [keys_dictSet]
  split_ifs <;> simp [h]

/-- `d[k] = v` preserves key uniqueness. -/
theorem nodup_keys_dictSet (d : List (String × String)) (k v : String)
    (h : (d.map Prod.fst).Nodup) : ((dictSet d k v).map Prod.fst).Nodup := by
  rw [keys_dictSet]
  split_ifs with hk
  · exact h
  · simp [List.nodup_append, h, hk]

/-- `d.pop(k, None)` only removes keys. -/
theorem keys_dictPop_sublist (d : List (String × String)) (k : String) :
    ((dictPop d k).map Prod.fst).Sublist (d.map Prod.fst) := by
  induction d with
  | nil => simp [dictPop]
  | cons kv rest ih =>
    rcases kv with ⟨a, b⟩
    by_cases hak : a = k
    · simp only [dictPop, if_pos hak, List.map_cons]
      exact List.sublist_cons_self _ _
    · simp only [dictPop, if_neg hak, List.map_cons]
      exact ih.cons₂ a

/-- `d.pop(k, None)` preserves key uniqueness. -/
theorem nodup_keys_dictPop (d : List (String × String)) (k : String)
    (h : (d.map Prod.fst).Nodup) : ((dictPop d k).map Prod.fst).Nodup :=
  (keys_dictPop_sublist d k).nodup h

/-- `set_queries` preserves key uniqueness. -/
theorem nodup_keys_foldl_dictSet (kvs : List (String × String)) :
    ∀ d, (d.map Prod.fst).Nodup →
      ((kvs.foldl (fun d kv => dictSet d kv.1 kv.2) d).map Prod.fst).Nodup := by
  induction kvs with
  | nil => intro d h; exact h
  | cons kv rest ih =>
    intro d h
    exact ih _ (nodup_keys_dictSet _ _ _ h)

/-- `unset_queries` preserves key uniqueness. -/
theorem nodup_keys_foldl_dictPop (ks : List String) :
    ∀ d, (d.map Prod.fst).Nodup → ((ks.foldl dictPop d).map Prod.fst).Nodup := by
  induction ks with
  | nil => intro d h; exact h
  | cons k rest ih =>
    intro d h
    exact ih _ (nodup_keys_dictPop _ _ h)

/-- `update` preserves key uniqueness of `_query_dict`. -/
theorem update_nodup (u : GoogleUrl) (o : Opts)
    (h : (u.query_dict.map Prod.fst).Nodup) :
    ((u.update o).query_dict.map Prod.fst).Nodup := by
  have h1 : ∀ d : List (String × String), (d.map Prod.fst).Nodup →
      (((match o.duration with
          | some dd => if dd ≠ "" then dictSet d "tbs" ("qdr:" ++ dd) else d
          | none => d) : List (String × String)).map Prod.fst).Nodup := by
    intro d hd
    rcases o.duration with _ | dd
    · exact hd
    · dsimp only
      split_ifs
      · exact nodup_keys_dictSet _ _ _ hd
      · exact hd
  have h2 : ∀ d : List (String × String), (d.map Prod.fst).Nodup →
      (((match o.exact with
          | some true => dictSet d "nfpr" "1"
          | some false => dictPop d "nfpr"
          | none => d) : List (String × String)).map Prod.fst).Nodup := by
    intro d hd
    rcases o.exact with _ | e
    · exact hd
    · cases e
      · exact nodup_keys_dictPop _ _ hd
      · exact nodup_keys_dictSet _ _ _ hd
  have h3 : ∀ d : List (String × String), (d.map Prod.fst).Nodup →
      (((match o.lang with
          | some l => if l ≠ "" then dictSet d "hl" l else d
          | none => d) : List (String × String)).map Prod.fst).Nodup := by
    intro d hd
    rcases o.lang with _ | l
    · exact hd
    · dsimp only
      split_ifs
      · exact nodup_keys_dictSet _ _ _ hd
      · exact hd
  have h4 : ∀ d : List (String × String), (d.map Prod.fst).Nodup →
      (((match o.news with
          | some true => dictSet d "tbm" "nws"
          | some false => dictPop d "tbm"
          | none => d) : List (String × String)).map Prod.fst).Nodup := by
    intro d hd
    rcases o.news with _ | n
    · exact hd
    · cases n
      · exact nodup_keys_dictPop _ _ hd
      · exact nodup_keys_dictSet _ _ _ hd
  exact h4 _ (h3 _ (h2 _ (h1 _ h)))

/-- Python-`dict` invariant: every reachable `GoogleUrl` has unique
`_query_dict` keys. -/
theorem Reachable_nodup {u : GoogleUrl} (h : Reachable u) :
    (u.query_dict.map Prod.fst).Nodup := by
  induction h with
  | init o => exact update_nodup _ o (by decide)
  | update o _ ih => exact update_nodup _ o ih
  | set_queries kvs _ ih => exact nodup_keys_foldl_dictSet kvs _ ih
  | unset_queries ks _ ih => exact nodup_keys_foldl_dictPop ks _ ih
  | next_page _ ih => exact ih
  | prev_page _ hp ih =>
    unfold GoogleUrl.prev_page at hp
    split_ifs at hp <;> (injection hp with hp; subst hp; exact ih)
  | first_page _ hp ih =>
    unfold GoogleUrl.first_page at hp
    split_ifs at hp
    injection hp with hp
    subst hp
    exact ih

/-- Lookup in a list of pairs built from distinct-source keys. -/
theorem dictLookup_map_self (ks : List String) (f : String → String) (k : String)
    (h : k ∈ ks) : dictLookup (ks.map fun x => (x, f x)) k = some (f k) := by
  induction ks with
  | nil => cases h
  | cons a rest ih =>
    by_cases hak : a = k
    · subst hak; simp [dictLookup]
    · rcases List.mem_cons.mp h with h1 | h1
      · exact absurd h1.symm hak
      · simp [dictLookup, hak, ih h1]

/-- C7: in every reachable query state, the rendered query string contains the
parameters `q`, `num` and `start` exactly once each, all rendered keys appear
in lexicographically sorted order, and the value rendered for `q` is exactly
the keyword synthesis (percent-encoded keywords joined by `+`, optionally
suffixed by a `site:` restriction). -/
theorem C7_rendered_query_shape (u : GoogleUrl) (h : Reachable u) :
    ((u.query_pairs.map Prod.fst).count "q" = 1 ∧
     (u.query_pairs.map Prod.fst).count "num" = 1 ∧
     (u.query_pairs.map Prod.fst).count "start" = 1) ∧
    (u.query_pairs.map Prod.fst).Pairwise (· ≤ ·) ∧
    dictLookup u.query_pairs "q" = some u.qval := by
  have hqdnodup :
      ((dictSet (dictSet (dictSet u.query_dict "num" (toString u.num)) "start"
        (toString u.start)) "q" u.qval).map Prod.fst).Nodup :=
    nodup_keys_dictSet _ _ _ (nodup_keys_dictSet _ _ _
      (nodup_keys_dictSet _ _ _ (Reachable_nodup h)))
  set qd := dictSet (dictSet (dictSet u.query_dict "num" (toString u.num)) "start"
    (toString u.start)) "q" u.qval with hqddef
  have hqp : u.query_pairs = ((qd.map Prod.fst).mergeSort (fun a b => a ≤ b)).map
      (fun k => (k, (dictLookup qd k).getD "")) := rfl
  have hkeys : u.query_pairs.map Prod.fst =
      (qd.map Prod.fst).mergeSort (fun a b => a ≤ b) := by
    rw [hqp, List.map_map]
    exact List.map_id _
  have hperm : ((qd.map Prod.fst).mergeSort (fun a b => a ≤ b)).Perm (qd.map Prod.fst) :=
    List.mergeSort_perm _ _
  have hcount : ∀ k, k ∈ qd.map Prod.fst → (u.query_pairs.map Prod.fst).count k = 1 := by
    intro k hk
    rw [hkeys, hperm.count_eq]
    exact List.count_eq_one_of_mem hqdnodup hk
  refine ⟨⟨hcount _ (mem_keys_dictSet_self _ _ _),
          hcount _ (mem_keys_dictSet_of _ _ _ _ (mem_keys_dictSet_of _ _ _ _
            (mem_keys_dictSet_self _ _ _))),
          hcount _ (mem_keys_dictSet_of _ _ _ _ (mem_keys_dictSet_self _ _ _))⟩, ?_, ?_⟩
  · rw [hkeys]
    have htrans : ∀ a b c : String, decide (a ≤ b) = true → decide (b ≤ c) = true →
        decide (a ≤ c) = true := by
      intro a b c hab hbc
      simp only [decide_eq_true_eq] at *
      exact le_trans hab hbc
    have htotal : ∀ a b : String, (decide (a ≤ b) || decide (b ≤ a)) = true := by
      intro a b
      simpa [Bool.or_eq_true, decide_eq_true_eq] using le_total a b
    have hs := List.sorted_mergeSort htrans htotal (qd.map Prod.fst)
    exact hs.imp fun hab => of_decide_eq_true hab
  · rw [hqp]
    have hmem : "q" ∈ (qd.map Prod.fst).mergeSort (fun a b => a ≤ b) :=
      hperm.mem_iff.mpr (mem_keys_dictSet_self _ _ _)
    rw [dictLookup_map_self _ _ _ hmem, hqddef, dictLookup_dictSet]
    simp

/-- Witness for C7: the freshly initialized query state (a reachable state)
renders `q`, `num`, `start` exactly once, sorted, with the synthesized `q`. -/
theorem C7_rendered_query_shape_witness :
    ((((GoogleUrl.init {}).query_pairs.map Prod.fst).count "q" = 1 ∧
      ((GoogleUrl.init {}).query_pairs.map Prod.fst).count "num" = 1 ∧
      ((GoogleUrl.init {}).query_pairs.map Prod.fst).count "start" = 1) ∧
     ((GoogleUrl.init {}).query_pairs.map Prod.fst).Pairwise (· ≤ ·) ∧
     dictLookup (GoogleUrl.init {}).query_pairs "q" = some (GoogleUrl.init {}).qval) :=
  C7_rendered_query_shape (GoogleUrl.init {}) (Reachable.init {})

end Googler

namespace Googler

theorem annLookup_annUpdate (d : AnnDict) (t : String) (l' : List (Option String)) (u : String) :
    annLookup (annUpdate d t l') u =
      if u = t then (annLookup d t).map (fun _ => l') else annLookup d u := by
  induction d with
  | nil => simp [annUpdate, annLookup]
  | cons e rest ih =>
    rcases e with ⟨a, l⟩
    by_cases hat : a = t
    · subst hat
      simp only [annUpdate, if_pos rfl, annLookup]
      by_cases hu : a = u
      · subst hu; simp
      · simp [hu, Ne.symm hu]
    · simp only [annUpdate, if_neg hat, annLookup]
      by_cases hu : a = u
      · subst hu
        simp [hat]
      · simp [hu, ih]

theorem annLookup_append (d e : AnnDict) (u : String) :
    annLookup (d ++ e) u = match annLookup d u with
      | some l => some l
      | none => annLookup e u := by
  induction d with
  | nil => simp [annLookup]
  | cons x rest ih =>
    rcases x with ⟨a, l⟩
    by_cases hu : a = u
    · subst hu
      simp [annLookup]
    · simp [annLookup, hu, ih]

theorem annLookup_annPush (d : AnnDict) (t : String) (x : Option String) (u : String) :
    annLookup (annPush d t x) u =
      if u = t then some (((annLookup d t).getD []) ++ [x]) else annLookup d u := by
  unfold annPush
  rcases hdt : annLookup d t with _ | l
  · rw [annLookup_append]
    by_cases hu : u = t
    · subst hu
      rw [hdt]
      simp [annLookup]
    · rcases h2 : annLookup d u with _ | l2
      · simp [annLookup, hu, show ¬(t = u) from fun hh => hu hh.symm]
      · simp [hu]
  · rw [annLookup_annUpdate]
    by_cases hu : u = t
    · subst hu
      rw [hdt]
      simp
    · simp [hu]

theorem annRel_refl (d : AnnDict) : annRel d d := fun _ => Or.inl rfl

theorem annRel_trans {a b c : AnnDict} (h1 : annRel a b) (h2 : annRel b c) : annRel a c := by
  intro t
  rcases h1 t with h1t | ⟨h1a, h1b⟩
  · rcases h2 t with h2t | ⟨h2b, h2c⟩
    · exact Or.inl (h1t.trans h2t)
    · exact Or.inr ⟨h1t.trans h2b, h2c⟩
  · rcases h2 t with h2t | ⟨h2b, h2c⟩
    · exact Or.inr ⟨h1a, h2t.symm.trans h1b⟩
    · rw [h1b] at h2b
      cases h2b

theorem annPush_rel {a b : AnnDict} (h : annRel a b) (t : String) (x : Option String) :
    annRel (annPush a t x) (annPush b t x) := by
  intro u
  rw [annLookup_annPush, annLookup_annPush]
  by_cases hu : u = t
  · subst hu
    rcases h u with hu1 | ⟨hu1, hu2⟩
    · simp [hu1]
    · rw [hu1, hu2]
      left
      simp
  · simp only [if_neg hu]
    exact h u

theorem annPop_none {d : AnnDict} {t : String} (h : annLookup d t = none) :
    annPop d t = none := by
  unfold annPop
  rw [h]

theorem annPop_empty {d : AnnDict} {t : String} (h : annLookup d t = some []) :
    annPop d t = some (none, d) := by
  unfold annPop
  rw [h]

theorem annPop_cons {d : AnnDict} {t : String} {x : Option String} {xs : List (Option String)}
    (h : annLookup d t = some (x :: xs)) :
    annPop d t = some ((x :: xs).getLastD none, annUpdate d t (x :: xs).dropLast) := by
  unfold annPop
  rw [h]

theorem annPop_concat {d : AnnDict} {t : String} {L : List (Option String)} {x : Option String}
    (h : annLookup d t = some (L ++ [x])) :
    annPop d t = some (x, annUpdate d t L) := by
  rcases L with _ | ⟨y, ys⟩
  · simp only [List.nil_append] at h
    rw [annPop_cons h]
    simp
  · rw [List.cons_append] at h
    rw [annPop_cons h]
    have h1 : (y :: (ys ++ [x])).getLastD none = x := by
      rw [← List.cons_append]
      exact List.getLastD_concat _ _ _
    have h2 : (y :: (ys ++ [x])).dropLast = y :: ys := by
      rw [← List.cons_append]
      exact List.dropLast_concat
    rw [h1, h2]


theorem annRel_update {a b : AnnDict} (h : annRel a b) {t : String}
    {l0 : List (Option String)} (hb : annLookup b t = some l0) (l : List (Option String)) :
    annRel (annUpdate a t l) (annUpdate b t l) := by
  intro u
  rw [annLookup_annUpdate, annLookup_annUpdate]
  by_cases hu : u = t
  · subst hu
    rcases h u with h1 | ⟨h1, h2⟩
    · rw [h1]
      exact Or.inl rfl
    · rw [h2] at hb
      cases hb
  · simp only [if_neg hu]
    exact h u

theorem annPop_rel {a b : AnnDict} (hr : annRel a b) {t : String} {ann : Option String}
    {b2 : AnnDict} (hp : annPop b t = some (ann, b2)) :
    ∃ a2, annPop a t = some (ann, a2) ∧ annRel a2 b2 := by
  rcases hb : annLookup b t with _ | l
  · rw [annPop_none hb] at hp
    cases hp
  · rcases l with _ | ⟨x, xs⟩
    · rw [annPop_empty hb] at hp
      simp only [Option.some.injEq, Prod.mk.injEq] at hp
      obtain ⟨h1, h2⟩ := hp
      subst h1
      subst h2
      rcases hr t with h1 | ⟨h1, h2⟩
      · rw [hb] at h1
        exact ⟨a, annPop_empty h1, hr⟩
      · rw [hb] at h2
        cases h2
    · rw [annPop_cons hb] at hp
      simp only [Option.some.injEq, Prod.mk.injEq] at hp
      obtain ⟨h1, h2⟩ := hp
      subst h1
      subst h2
      rcases hr t with h1 | ⟨h1, h2⟩
      · rw [hb] at h1
        exact ⟨_, annPop_cons h1, annRel_update hr hb _⟩
      · rw [hb] at h2
        cases h2

theorem recordData_off {c : PCore} (h : c.capture = Capture.off) (s : String) :
    recordData c s = c := by
  unfold recordData
  rw [h]

theorem handleStart_equiv {a b : PState} (hc : a.core = b.core) (hr : annRel a.anns b.anns)
    (t : String) (attrs : List (String × String)) :
    (handleStart a t attrs).core = (handleStart b t attrs).core ∧
    annRel (handleStart a t attrs).anns (handleStart b t attrs).anns := by
  simp only [handleStart]
  rw [hc]
  by_cases h1 : b.core.scope = Scope.ignore
  · rw [if_pos h1, if_pos h1]
    exact ⟨rfl, annPush_rel hr t none⟩
  · rw [if_neg h1, if_neg h1]
    by_cases h2 : ignoreMatch t (pyDict attrs) = true
    · rw [if_pos h2, if_pos h2]
      exact ⟨rfl, annPush_rel hr t _⟩
    · rw [if_neg h2, if_neg h2]
      rcases hsb : startBody b.core.scope b.core t (pyDict attrs) with ⟨c2, ann⟩
      exact ⟨rfl, annPush_rel hr t ann⟩

theorem handleEnd_sim {a b : PState} (hc : a.core = b.core) (hr : annRel a.anns b.anns)
    {t : String} {b' : PState} (hp : handleEnd b t = .ok b') :
    ∃ a', handleEnd a t = .ok a' ∧ a'.core = b'.core ∧ annRel a'.anns b'.anns := by
  unfold handleEnd at hp ⊢
  rcases hbp : annPop b.anns t with _ | ⟨ann, banns2⟩
  · simp only [hbp] at hp
    cases hp
  · simp only [hbp] at hp
    obtain ⟨aanns2, hap, hrel2⟩ := annPop_rel hr hbp
    rcases hhb : endBody b.core.scope b.core ann with e | c2
    · simp only [hhb] at hp
      cases hp
    · simp only [hhb, Except.ok.injEq] at hp
      subst hp
      refine ⟨⟨c2, aanns2⟩, ?_, rfl, hrel2⟩
      simp only [hap, hc, hhb]

theorem pstep_sim {a b : PState} (hc : a.core = b.core) (hr : annRel a.anns b.anns)
    {e : Event} {b' : PState} (hp : pstep b e = .ok b') :
    ∃ a', pstep a e = .ok a' ∧ a'.core = b'.core ∧ annRel a'.anns b'.anns := by
  cases e with
  | text s =>
    injection hp with hp
    subst hp
    exact ⟨_, rfl, by rw [hc], hr⟩
  | startTag t attrs =>
    injection hp with hp
    subst hp
    obtain ⟨h1, h2⟩ := handleStart_equiv hc hr t attrs
    exact ⟨handleStart a t attrs, rfl, h1, h2⟩
  | endTag t =>
    exact handleEnd_sim hc hr hp

theorem runEvents_append (st : PState) (xs ys : List Event) :
    runEvents st (xs ++ ys) = match runEvents st xs with
      | .ok st' => runEvents st' ys
      | .error e => .error e := by
  induction xs generalizing st with
  | nil => rfl
  | cons e rest ih =>
    show runEvents st (e :: (rest ++ ys)) = _
    simp only [runEvents]
    rcases hp : pstep st e with err | st1
    · rfl
    · exact ih st1

theorem runEvents_cons_ok {st st' : PState} {e : Event} (h : pstep st e = .ok st')
    (rest : List Event) : runEvents st (e :: rest) = runEvents st' rest := by
  simp only [runEvents, h]

theorem runEvents_append_ok {st st' : PState} {xs : List Event}
    (h : runEvents st xs = .ok st') (ys : List Event) :
    runEvents st (xs ++ ys) = runEvents st' ys := by
  rw [runEvents_append, h]

theorem runEvents_sim {Q : List Event} :
    ∀ {a b b' : PState}, a.core = b.core → annRel a.anns b.anns →
      runEvents b Q = .ok b' →
      ∃ a', runEvents a Q = .ok a' ∧ a'.core = b'.core ∧ annRel a'.anns b'.anns := by
  induction Q with
  | nil =>
    intro a b b' hc hr h
    injection h with h
    subst h
    exact ⟨a, rfl, hc, hr⟩
  | cons e rest ih =>
    intro a b b' hc hr h
    simp only [runEvents] at h ⊢
    rcases hp : pstep b e with err | b1
    · simp only [hp] at h
      cases h
    · simp only [hp] at h
      obtain ⟨a1, hap, hc1, hr1⟩ := pstep_sim hc hr hp
      simp only [hap]
      exact ih hc1 hr1 h

theorem annRel_update_back {d2 anns0 : AnnDict} {t : String} {x : Option String}
    (hrel2 : annRel d2 (annPush anns0 t x)) :
    annLookup d2 t = some (((annLookup anns0 t).getD []) ++ [x]) ∧
    annRel (annUpdate d2 t ((annLookup anns0 t).getD [])) anns0 := by
  have hlook : annLookup d2 t = some (((annLookup anns0 t).getD []) ++ [x]) := by
    rcases hrel2 t with hh | ⟨hh1, hh2⟩
    · rw [hh, annLookup_annPush]
      simp
    · rw [annLookup_annPush] at hh2
      simp at hh2
  refine ⟨hlook, ?_⟩
  intro u
  rw [annLookup_annUpdate]
  by_cases hu : u = t
  · subst hu
    rw [hlook]
    rcases hst : annLookup anns0 u with _ | l
    · right
      exact ⟨by simp, rfl⟩
    · left
      simp [hst]
  · simp only [if_neg hu]
    rcases hrel2 u with hh | ⟨hh1, hh2⟩
    · rw [annLookup_annPush, if_neg hu] at hh
      exact Or.inl hh
    · rw [annLookup_annPush, if_neg hu] at hh2
      exact Or.inr ⟨hh1, hh2⟩

theorem ignore_end_restore (c : PCore) (s : Scope) :
    ignore_end c (some (scopeName s ++ "_ignored")) = .ok { c with scope := s } := by
  cases s <;> rfl

theorem runIgnoreForest {S : List Event} (hS : Forest S) :
    ∀ st : PState, st.core.scope = Scope.ignore → st.core.capture = Capture.off →
      ∃ d', runEvents st S = .ok ⟨st.core, d'⟩ ∧ annRel d' st.anns := by
  induction hS with
  | nil =>
    intro st h1 h2
    exact ⟨st.anns, rfl, annRel_refl _⟩
  | text s _ ih =>
    intro st h1 h2
    obtain ⟨d', hrun, hrel⟩ := ih st h1 h2
    refine ⟨d', ?_, hrel⟩
    show runEvents st (Event.text s :: _) = _
    simp only [runEvents, pstep]
    rw [recordData_off h2]
    exact hrun
  | @node t attrs inner rest hinner hrest ihinner ihrest =>
    intro st h1 h2
    have hstep : pstep st (Event.startTag t attrs) =
        .ok ⟨st.core, annPush st.anns t none⟩ := by
      simp only [pstep, handleStart, if_pos h1]
    obtain ⟨d2, hrun2, hrel2⟩ := ihinner ⟨st.core, annPush st.anns t none⟩ h1 h2
    have hrun2a : runEvents ⟨st.core, annPush st.anns t none⟩ inner = .ok ⟨st.core, d2⟩ :=
      hrun2
    have hrel2a : annRel d2 (annPush st.anns t none) := hrel2
    obtain ⟨hlook2, hrel3⟩ := annRel_update_back hrel2a
    have hpop : annPop d2 t =
        some (none, annUpdate d2 t ((annLookup st.anns t).getD [])) :=
      annPop_concat hlook2
    have hstep2 : pstep ⟨st.core, d2⟩ (Event.endTag t) =
        .ok ⟨st.core, annUpdate d2 t ((annLookup st.anns t).getD [])⟩ := by
      simp only [pstep, handleEnd, hpop, h1, endBody, ignore_end]
    obtain ⟨d4, hrun4, hrel4⟩ :=
      ihrest ⟨st.core, annUpdate d2 t ((annLookup st.anns t).getD [])⟩ h1 h2
    have hrun4a : runEvents ⟨st.core, annUpdate d2 t ((annLookup st.anns t).getD [])⟩ rest =
        .ok ⟨st.core, d4⟩ := hrun4
    have hrel4a : annRel d4 (annUpdate d2 t ((annLookup st.anns t).getD [])) := hrel4
    refine ⟨d4, ?_, annRel_trans hrel4a hrel3⟩
    rw [runEvents_cons_ok hstep, runEvents_append_ok hrun2a]
    exact (runEvents_cons_ok hstep2 rest).trans hrun4a

theorem ignoredSubtree {S : List Event} (hS : Forest S) (st : PState) (t : String)
    (attrs : List (String × String))
    (hscope : ¬(st.core.scope = Scope.ignore)) (hcap : st.core.capture = Capture.off)
    (hmatch : ignoreMatch t (pyDict attrs) = true) :
    ∃ d', runEvents st (Event.startTag t attrs :: (S ++ [Event.endTag t])) =
        .ok ⟨st.core, d'⟩ ∧ annRel d' st.anns := by
  have hstep : pstep st (Event.startTag t attrs) =
      .ok ⟨{ st.core with scope := Scope.ignore },
           annPush st.anns t (some (scopeName st.core.scope ++ "_ignored"))⟩ := by
    simp only [pstep, handleStart, if_neg hscope, if_pos hmatch]
  obtain ⟨d2, hrun2, hrel2⟩ := runIgnoreForest hS
    ⟨{ st.core with scope := Scope.ignore },
     annPush st.anns t (some (scopeName st.core.scope ++ "_ignored"))⟩ rfl hcap
  have hrun2a : runEvents
      ⟨{ st.core with scope := Scope.ignore },
       annPush st.anns t (some (scopeName st.core.scope ++ "_ignored"))⟩ S =
      .ok ⟨{ st.core with scope := Scope.ignore }, d2⟩ := hrun2
  have hrel2a : annRel d2
      (annPush st.anns t (some (scopeName st.core.scope ++ "_ignored"))) := hrel2
  obtain ⟨hlook2, hrel3⟩ := annRel_update_back hrel2a
  have hpop : annPop d2 t =
      some (some (scopeName st.core.scope ++ "_ignored"),
            annUpdate d2 t ((annLookup st.anns t).getD [])) :=
    annPop_concat hlook2
  have hstep2 : pstep ⟨{ st.core with scope := Scope.ignore }, d2⟩ (Event.endTag t) =
      .ok ⟨st.core, annUpdate d2 t ((annLookup st.anns t).getD [])⟩ := by
    have hend2 : endBody Scope.ignore { st.core with scope := Scope.ignore }
        (some (scopeName st.core.scope ++ "_ignored")) = .ok st.core :=
      ignore_end_restore { st.core with scope := Scope.ignore } st.core.scope
    simp only [pstep, handleEnd, hpop, hend2]
  refine ⟨annUpdate d2 t ((annLookup st.anns t).getD []), ?_, hrel3⟩
  rw [runEvents_cons_ok hstep, runEvents_append_ok hrun2a,
      runEvents_cons_ok hstep2]
  rfl

theorem C4_text_inside_ignored_container_leaks :
    (resultsOf (runEvents (pInit false true) c4docWithIgnored)).map Result.abstract
      = ["ALEAK"] ∧
    (resultsOf (runEvents (pInit false true) c4docRemoved)).map Result.abstract
      = ["A"] ∧
    resultsOf (runEvents (pInit false true) c4docWithIgnored) ≠
      resultsOf (runEvents (pInit false true) c4docRemoved) := by
  refine ⟨rfl, rfl, fun h => ?_⟩
  have h2 : (["ALEAK"] : List String) = ["A"] := congrArg (List.map Result.abstract) h
  exact absurd h2 (by decide)

/-- C4 (amended): while data capture is off, a balanced subtree rooted at an
ignore-listed container is inert — the parse of the remaining document
produces the same parser core as if the subtree were absent. -/
theorem C4_ignored_subtree_inert (st : PState) (t : String) (attrs : List (String × String))
    (S Q : List Event) (st2 : PState)
    (hmatch : ignoreMatch t (pyDict attrs) = true)
    (hcap : st.core.capture = Capture.off)
    (hscope : ¬(st.core.scope = Scope.ignore))
    (hS : Forest S)
    (hQ : runEvents st Q = .ok st2) :
    ∃ st1, runEvents st (Event.startTag t attrs :: (S ++ (Event.endTag t :: Q))) = .ok st1 ∧
      st1.core = st2.core := by
  obtain ⟨d', hseg, hrel⟩ := ignoredSubtree hS st t attrs hscope hcap hmatch
  obtain ⟨st1, hrun1, hc1, _⟩ := runEvents_sim (a := ⟨st.core, d'⟩) (b := st) rfl hrel hQ
  refine ⟨st1, ?_, hc1⟩
  have hlist : Event.startTag t attrs :: (S ++ (Event.endTag t :: Q)) =
      (Event.startTag t attrs :: (S ++ [Event.endTag t])) ++ Q := by
    simp
  rw [hlist, runEvents_append_ok hseg]
  exact hrun1

theorem C4_ignored_subtree_inert_witness :
    ignoreMatch "div" (pyDict [("class", "g-blk")]) = true ∧
    (pInit false true).core.capture = Capture.off ∧
    ¬((pInit false true).core.scope = Scope.ignore) ∧
    (∃ st1, runEvents (pInit false true)
        (Event.startTag "div" [("class", "g-blk")] ::
          ([Event.text "LEAK"] ++ (Event.endTag "div" :: ([] : List Event)))) = .ok st1 ∧
      st1.core = (pInit false true).core) :=
  ⟨rfl, rfl, by decide,
   C4_ignored_subtree_inert (pInit false true) "div" [("class", "g-blk")]
     [Event.text "LEAK"] [] (pInit false true) rfl rfl (by decide)
     (Forest.text "LEAK" Forest.nil) rfl⟩

end Googler
